import Mathlib

/-!
Shallow embedding of the Gabar AI / Athena intake workflow (a set of Google
Cloud Functions written in JavaScript) together with proofs about the claims
of its specification.  Strings are modelled as lists of characters where the
source manipulates them character by character; machine timestamps are
natural numbers of milliseconds; Firestore collections are association lists
from document id to document; Pub/Sub topics are lists of published messages.
-/

namespace GabarAthena

/-! ## Character utilities (JS regex character classes) -/

/-- JS regex `\d`, i.e. the ASCII digits `0`-`9`. -/
def isDigitChar (c : Char) : Bool := '0' ≤ c && c ≤ '9'

/-- JS regex `\s` restricted to the ASCII whitespace characters that occur in
the inputs of this system (space, tab, carriage return, line feed). -/
def isWsChar (c : Char) : Bool := c = ' ' || c = '\t' || c = '\r' || c = '\n'

/-- JS regex `\w`: ASCII letter, digit, or underscore. -/
def isWordChar (c : Char) : Bool := c.isAlpha || isDigitChar c || c = '_'

/-- Numeric value of an ASCII digit character. -/
def digitVal (c : Char) : Nat := c.toNat - 48

/-- The ASCII digit character for a digit value below ten. -/
def digitChar : Nat → Char
  | 0 => '0' | 1 => '1' | 2 => '2' | 3 => '3' | 4 => '4'
  | 5 => '5' | 6 => '6' | 7 => '7' | 8 => '8' | _ => '9'

/-- ASCII lower-casing as performed by JS `toLowerCase` on the data of this
system (only ASCII letters occur). -/
def lowerChar (c : Char) : Char :=
  if 'A' ≤ c && c ≤ 'Z' then Char.ofNat (c.toNat + 32) else c

/-- ASCII upper-casing as performed by JS `toUpperCase` on the data of this
system. -/
def upperChar (c : Char) : Char :=
  if 'a' ≤ c && c ≤ 'z' then Char.ofNat (c.toNat - 32) else c

theorem lowerChar_digit {c : Char} (h : isDigitChar c = true) : lowerChar c = c := by
  simp only [isDigitChar, Bool.and_eq_true, decide_eq_true_eq] at h
  rw [lowerChar, if_neg]
  simp only [Bool.and_eq_true, decide_eq_true_eq, not_and]
  intro h1
  exfalso
  have h1' : ('A' : Char).toNat ≤ c.toNat := h1
  have hc : c.toNat ≤ ('9' : Char).toNat := h.2
  have e1 : ('A' : Char).toNat = 65 := rfl
  have e2 : ('9' : Char).toNat = 57 := rfl
  omega

/-! ## Decimal numerals: rendering and parsing -/

/-- Fuelled digit renderer (structural recursion so that the kernel can
evaluate it; the fuel is always sufficient below). -/
def natDigitsAux : Nat → Nat → List Char
  | 0, _ => []
  | fuel + 1, n =>
    if n < 10 then [digitChar n]
    else natDigitsAux fuel (n / 10) ++ [digitChar (n % 10)]

/-- The decimal digit characters of a natural number (JS `n.toString()`). -/
def natDigits (n : Nat) : List Char := natDigitsAux (n + 1) n

theorem natDigitsAux_fuel {n f1 f2 : Nat} (h1 : n < f1) (h2 : n < f2) :
    natDigitsAux f1 n = natDigitsAux f2 n := by
  induction n using Nat.strong_induction_on generalizing f1 f2 with
  | _ n ih =>
    match f1, f2 with
    | g1 + 1, g2 + 1 =>
      simp only [natDigitsAux]
      by_cases hn : n < 10
      · simp [hn]
      · rw [if_neg hn, if_neg hn]
        have hd : n / 10 < n := Nat.div_lt_self (by omega) (by omega)
        have hrec : natDigitsAux g1 (n / 10) = natDigitsAux g2 (n / 10) :=
          ih (n / 10) hd (by omega) (by omega)
        rw [hrec]

theorem natDigits_unfold (n : Nat) :
    natDigits n = if n < 10 then [digitChar n] else natDigits (n / 10) ++ [digitChar (n % 10)] := by
  show natDigitsAux (n + 1) n = _
  simp only [natDigitsAux]
  by_cases hn : n < 10
  · simp [hn]
  · rw [if_neg hn, if_neg hn, natDigits]
    have hd : n / 10 < n := Nat.div_lt_self (by omega) (by omega)
    have hrec : natDigitsAux n (n / 10) = natDigitsAux (n / 10 + 1) (n / 10) :=
      natDigitsAux_fuel (by omega) (by omega)
    rw [hrec]

/-- Parse a list of decimal digit characters into a natural number, starting
from an accumulator (the usual left fold). -/
def parseNatFrom (acc : Nat) (cs : List Char) : Nat :=
  cs.foldl (fun a c => a * 10 + digitVal c) acc

/-- Parse a list of decimal digit characters into a natural number. -/
def parseNat (cs : List Char) : Nat := parseNatFrom 0 cs

theorem digitVal_digitChar {d : Nat} (h : d < 10) : digitVal (digitChar d) = d := by
  interval_cases d <;> rfl

theorem isDigitChar_digitChar {d : Nat} (h : d < 10) : isDigitChar (digitChar d) = true := by
  interval_cases d <;> rfl

theorem natDigits_ne_nil (n : Nat) : natDigits n ≠ [] := by
  rw [natDigits_unfold]
  split
  · simp
  · simp

theorem natDigits_all_digits (n : Nat) : ∀ c ∈ natDigits n, isDigitChar c = true := by
  induction n using Nat.strong_induction_on with
  | _ n ih =>
    rw [natDigits_unfold]
    split
    · next h =>
      intro c hc
      simp only [List.mem_singleton] at hc
      subst hc
      exact isDigitChar_digitChar h
    · next h =>
      intro c hc
      rcases List.mem_append.mp hc with h1 | h2
      · exact ih (n / 10) (Nat.div_lt_self (by omega) (by omega)) c h1
      · simp only [List.mem_singleton] at h2
        subst h2
        exact isDigitChar_digitChar (Nat.mod_lt _ (by omega))

theorem parseNatFrom_append (acc : Nat) (xs ys : List Char) :
    parseNatFrom acc (xs ++ ys) = parseNatFrom (parseNatFrom acc xs) ys := by
  simp [parseNatFrom, List.foldl_append]

theorem parseNatFrom_natDigits (acc n : Nat) :
    parseNatFrom acc (natDigits n) = acc * 10 ^ (natDigits n).length + n := by
  induction n using Nat.strong_induction_on generalizing acc with
  | _ n ih =>
    rw [natDigits_unfold]
    split
    · next h =>
      simp [parseNatFrom, digitVal_digitChar h]
    · next h =>
      rw [parseNatFrom_append]
      rw [ih (n / 10) (Nat.div_lt_self (by omega) (by omega))]
      simp only [parseNatFrom, List.foldl, List.length_append, List.length_singleton]
      rw [digitVal_digitChar (Nat.mod_lt _ (by omega))]
      rw [pow_succ]
      have : n = 10 * (n / 10) + n % 10 := (Nat.div_add_mod n 10).symm
      ring_nf
      omega

theorem parseNat_natDigits (n : Nat) : parseNat (natDigits n) = n := by
  have := parseNatFrom_natDigits 0 n
  simpa [parseNat] using this

theorem natDigits_length_step (n : Nat) (h : 10 ≤ n) :
    (natDigits n).length = (natDigits (n / 10)).length + 1 := by
  rw [natDigits_unfold, if_neg (by omega)]
  simp

theorem natDigits_length_one {n : Nat} (h : n < 10) : (natDigits n).length = 1 := by
  rw [natDigits_unfold, if_pos h]
  rfl

theorem natDigits_length_two {n : Nat} (h1 : 10 ≤ n) (h2 : n ≤ 99) :
    (natDigits n).length = 2 := by
  rw [natDigits_length_step n h1, natDigits_length_one (by omega)]

theorem natDigits_length_four {n : Nat} (h1 : 1000 ≤ n) (h2 : n ≤ 9999) :
    (natDigits n).length = 4 := by
  rw [natDigits_length_step n (by omega), natDigits_length_step (n / 10) (by omega),
    natDigits_length_two (n := n / 10 / 10) (by omega) (by omega)]

/-! ## List scanning helpers (JS `split`, `trim`, `includes`, regex scans) -/

/-- JS `s.split(sep)` for a single separator character, at the level of
character lists.  Always returns at least one (possibly empty) part. -/
def splitOnChar (sep : Char) : List Char → List (List Char)
  | [] => [[]]
  | c :: cs =>
    let r := splitOnChar sep cs
    if c = sep then [] :: r else (c :: r.headD []) :: r.tail

theorem splitOnChar_ne_nil (sep : Char) (cs : List Char) : splitOnChar sep cs ≠ [] := by
  cases cs with
  | nil => simp [splitOnChar]
  | cons c cs =>
    simp only [splitOnChar]
    split <;> simp

theorem splitOnChar_no_sep {sep : Char} {cs : List Char} (h : ∀ c ∈ cs, c ≠ sep) :
    splitOnChar sep cs = [cs] := by
  induction cs with
  | nil => rfl
  | cons c cs ih =>
    have hc : c ≠ sep := h c (List.mem_cons_self c cs)
    have ih' := ih (fun x hx => h x (List.mem_cons_of_mem c hx))
    simp [splitOnChar, hc, ih']

theorem splitOnChar_append {sep : Char} {xs : List Char} (ys : List Char)
    (h : ∀ c ∈ xs, c ≠ sep) :
    splitOnChar sep (xs ++ sep :: ys) = xs :: splitOnChar sep ys := by
  induction xs with
  | nil => simp [splitOnChar]
  | cons c cs ih =>
    have hc : c ≠ sep := h c (List.mem_cons_self c cs)
    have ih' := ih (fun x hx => h x (List.mem_cons_of_mem c hx))
    simp [splitOnChar, hc, ih']

/-- Is `needle` an initial segment of `hay`?  (Used to model JS `includes`
and anchored regex matching.) -/
def startsList : List Char → List Char → Bool
  | [], _ => true
  | _ :: _, [] => false
  | a :: as, b :: bs => a = b && startsList as bs

/-- JS `hay.includes(needle)`: substring containment. -/
def containsSub (needle : List Char) : List Char → Bool
  | [] => startsList needle []
  | c :: cs => startsList needle (c :: cs) || containsSub needle cs

theorem startsList_append (xs ys : List Char) : startsList xs (xs ++ ys) = true := by
  induction xs with
  | nil => rfl
  | cons a as ih => simp [startsList, ih]

theorem takeWhile_append_not {p : Char → Bool} {xs : List Char} (c : Char) (ys : List Char)
    (hxs : ∀ x ∈ xs, p x = true) (hc : p c = false) :
    (xs ++ c :: ys).takeWhile p = xs := by
  induction xs with
  | nil => simp [List.takeWhile, hc]
  | cons a as ih =>
    have ha : p a = true := hxs a (List.mem_cons_self a as)
    have ih' := ih (fun x hx => hxs x (List.mem_cons_of_mem a hx))
    simp [List.takeWhile_cons, ha, ih']

theorem dropWhile_append_not {p : Char → Bool} {xs : List Char} (c : Char) (ys : List Char)
    (hxs : ∀ x ∈ xs, p x = true) (hc : p c = false) :
    (xs ++ c :: ys).dropWhile p = c :: ys := by
  induction xs with
  | nil => simp [List.dropWhile, hc]
  | cons a as ih =>
    have ha : p a = true := hxs a (List.mem_cons_self a as)
    have ih' := ih (fun x hx => hxs x (List.mem_cons_of_mem a hx))
    simp [List.dropWhile_cons, ha, ih']

/-- JS `String.prototype.trim` on our ASCII data: drop leading and trailing
whitespace. -/
def jsTrim (cs : List Char) : List Char :=
  ((cs.dropWhile isWsChar).reverse.dropWhile isWsChar).reverse

theorem jsTrim_eq_self {cs : List Char} (h : ∀ c ∈ cs, isWsChar c = false) :
    jsTrim cs = cs := by
  have h1 : cs.dropWhile isWsChar = cs := by
    cases cs with
    | nil => rfl
    | cons a as => simp [List.dropWhile_cons, h a (List.mem_cons_self a as)]
  have h2 : cs.reverse.dropWhile isWsChar = cs.reverse := by
    cases hr : cs.reverse with
    | nil => rfl
    | cons a as =>
      have ha : a ∈ cs := by
        have : a ∈ cs.reverse := by rw [hr]; exact List.mem_cons_self a as
        simpa using this
      simp [List.dropWhile_cons, h a ha]
  rw [jsTrim, h1, h2, List.reverse_reverse]

/-! ## Calendar arithmetic

`new Date(...)` in the source runs on V8 with the process timezone set to
UTC (the Cloud Functions runtime).  The civil-calendar conversions below are
the standard days-from-civil / civil-from-days algorithms on `Int` with
truncated division, matching the arithmetic the JS engine performs. -/

def isLeapYear (y : Nat) : Bool := (y % 4 = 0 && y % 100 ≠ 0) || y % 400 = 0

def monthLen (y m : Nat) : Nat :=
  if m = 2 then (if isLeapYear y then 29 else 28)
  else if m = 4 || m = 6 || m = 9 || m = 11 then 30
  else 31

/-- A valid civil date: month 1-12 and day within the month. -/
def validYmd (y m d : Nat) : Bool :=
  1 ≤ m && m ≤ 12 && 1 ≤ d && d ≤ monthLen y m

/-- Days since 1970-01-01 of a civil date (truncated Int division). -/
def daysFromCivil (y m d : Int) : Int :=
  let y' := if m ≤ 2 then y - 1 else y
  let era := (if 0 ≤ y' then y' else y' - 399) / 400
  let yoe := y' - era * 400
  let mp := if 2 < m then m - 3 else m + 9
  let doy := (153 * mp + 2) / 5 + d - 1
  let doe := yoe * 365 + yoe / 4 - yoe / 100 + doy
  era * 146097 + doe - 719468

/-- Civil date (year, month, day) of a days-since-epoch count. -/
def civilFromDays (z0 : Int) : Int × Int × Int :=
  let z := z0 + 719468
  let era := (if 0 ≤ z then z else z - 146096) / 146097
  let doe := z - era * 146097
  let yoe := (doe - doe / 1460 + doe / 36524 - doe / 146096) / 365
  let y := yoe + era * 400
  let doy := doe - (365 * yoe + yoe / 4 - yoe / 100)
  let mp := (5 * doy + 2) / 153
  let d := doy - (153 * mp + 2) / 5 + 1
  let m := if mp < 10 then mp + 3 else mp - 9
  (if m ≤ 2 then y + 1 else y, m, d)

/-- `new Date(year, monthIndex, day)` (all numeric): V8 normalizes month and
day overflow to a civil date. -/
def dateCtorNormalize (year mIdx day : Nat) : Int × Int × Int :=
  let total : Int := (year : Int) * 12 + (mIdx : Int)
  let ny := total / 12
  let nm := total % 12 + 1
  civilFromDays (daysFromCivil ny nm 1 + ((day : Int) - 1))

/-- Left-pad a decimal numeral with zeros to width `k` (as in `toISOString`). -/
def padTo (k n : Nat) : List Char :=
  List.replicate (k - (natDigits n).length) '0' ++ natDigits n

/-- The date part of `toISOString()` for a civil date, `YYYY-MM-DD`. -/
def toISODate (y m d : Nat) : List Char :=
  padTo 4 y ++ '-' :: (padTo 2 m ++ '-' :: padTo 2 d)

def toISODateInt (t : Int × Int × Int) : List Char :=
  toISODate t.1.toNat t.2.1.toNat t.2.2.toNat

/-! ## Model of the V8 date-string parser

`jsDateParse` models `new Date(string)` restricted to the input formats this
system exercises: padded ISO `YYYY-MM-DD`, US `M/D/YYYY` (one- or two-digit
month and day, four-digit year), and `MonthName D, YYYY` / `MonthName D YYYY`
(case-insensitive).  Strings outside this grammar are modelled as Invalid
Date.  Out-of-range components yield Invalid Date, as in V8. -/

def isoParseParts : List (List Char) → Option (Nat × Nat × Nat)
  | [ys, ms, ds] =>
    if ys.length = 4 && ys.all isDigitChar && ms.length = 2 && ms.all isDigitChar
        && ds.length = 2 && ds.all isDigitChar then
      if validYmd (parseNat ys) (parseNat ms) (parseNat ds) then
        some (parseNat ys, parseNat ms, parseNat ds)
      else none
    else none
  | _ => none

def isoParse (cs : List Char) : Option (Nat × Nat × Nat) :=
  isoParseParts (splitOnChar '-' cs)

def usParseParts : List (List Char) → Option (Nat × Nat × Nat)
  | [ms, ds, ys] =>
    if (ms.length = 1 || ms.length = 2) && ms.all isDigitChar
        && (ds.length = 1 || ds.length = 2) && ds.all isDigitChar
        && ys.length = 4 && ys.all isDigitChar then
      if validYmd (parseNat ys) (parseNat ms) (parseNat ds) then
        some (parseNat ys, parseNat ms, parseNat ds)
      else none
    else none
  | _ => none

def usParse (cs : List Char) : Option (Nat × Nat × Nat) :=
  usParseParts (splitOnChar '/' cs)

def monthNamesL : List (List Char) :=
  ["january".toList, "february".toList, "march".toList, "april".toList,
   "may".toList, "june".toList, "july".toList, "august".toList,
   "september".toList, "october".toList, "november".toList, "december".toList]

def tryMonthExact (lower : List Char) (i : Nat) (name : List Char) :
    Option (Nat × Nat × Nat) :=
  if startsList (name ++ [' ']) lower then
    let rest := lower.drop (name.length + 1)
    let ds := rest.takeWhile isDigitChar
    let tl := rest.dropWhile isDigitChar
    if 1 ≤ ds.length && ds.length ≤ 2 then
      let ys? : Option (List Char) :=
        match tl with
        | ',' :: ' ' :: t => some t
        | ' ' :: t => some t
        | _ => none
      match ys? with
      | some t =>
        if t.length = 4 && t.all isDigitChar then
          let y := parseNat t
          let d := parseNat ds
          if validYmd y (i + 1) d then some (y, i + 1, d) else none
        else none
      | none => none
    else none
  else none

/-- The first defined alternative. -/
def firstSome (a b : Option (Nat × Nat × Nat)) : Option (Nat × Nat × Nat) :=
  match a with
  | some r => some r
  | none => b

/-- Try the twelve month names in order (as the V8 parser recognizes them,
case-insensitively), keeping the first that matches. -/
def monthNameParse (cs : List Char) : Option (Nat × Nat × Nat) :=
  let lower := cs.map lowerChar
  firstSome (tryMonthExact lower 0 "january".toList)
    (firstSome (tryMonthExact lower 1 "february".toList)
      (firstSome (tryMonthExact lower 2 "march".toList)
        (firstSome (tryMonthExact lower 3 "april".toList)
          (firstSome (tryMonthExact lower 4 "may".toList)
            (firstSome (tryMonthExact lower 5 "june".toList)
              (firstSome (tryMonthExact lower 6 "july".toList)
                (firstSome (tryMonthExact lower 7 "august".toList)
                  (firstSome (tryMonthExact lower 8 "september".toList)
                    (firstSome (tryMonthExact lower 9 "october".toList)
                      (firstSome (tryMonthExact lower 10 "november".toList)
                        (tryMonthExact lower 11 "december".toList)))))))))))

def jsDateParse (cs : List Char) : Option (Nat × Nat × Nat) :=
  match isoParse cs with
  | some r => some r
  | none =>
    match usParse cs with
    | some r => some r
    | none => monthNameParse cs

/-! ## `parseDate` (bland-webhook/index.js lines 34-58) -/

/-- First match of JS regex `/\d{1,2}/`: at the first digit position, take
greedily up to two digits. -/
def firstDigitRun12 : List Char → Option Nat
  | [] => none
  | c :: cs =>
    if isDigitChar c then
      match cs with
      | c2 :: _ => if isDigitChar c2 then some (parseNat [c, c2]) else some (parseNat [c])
      | [] => some (parseNat [c])
    else firstDigitRun12 cs

/-- First match of JS regex `/\d{4}/`: the first position where four
consecutive digits begin. -/
def firstFourDigitRun : List Char → Option Nat
  | c1 :: c2 :: c3 :: c4 :: rest =>
    if isDigitChar c1 && isDigitChar c2 && isDigitChar c3 && isDigitChar c4 then
      some (parseNat [c1, c2, c3, c4])
    else firstFourDigitRun (c2 :: c3 :: c4 :: rest)
  | _ => none

/-- The first month index whose lowercase name the string contains
(the fallback loop in `parseDate` breaks at the first hit once a day and a
year match exist). -/
def monthContained (lower : List Char) : Option Nat :=
  monthNamesL.enum.findSome? (fun p => if containsSub p.2 lower then some p.1 else none)

/-- `parseDate` from the webhook ingress, on character lists.  A falsy
(empty) input is `null`; otherwise the trimmed string goes through the date
parser, with the month-name fallback scan when direct parsing fails. -/
def parseDateL (cs : List Char) : Option (List Char) :=
  if cs = [] then none
  else
    let dateStr := jsTrim cs
    match jsDateParse dateStr with
    | some (y, m, d) => some (toISODate y m d)
    | none =>
      let lower := dateStr.map lowerChar
      match firstDigitRun12 lower, firstFourDigitRun lower with
      | some day, some year =>
        match monthContained lower with
        | some i => some (toISODateInt (dateCtorNormalize year i day))
        | none => none
      | _, _ => none

/-- `parseDate` at the `String` level, as used by the webhook handler; an
absent (`undefined`) input is modelled as `none`. -/
def parseDate (dateInput : Option String) : Option String :=
  match dateInput with
  | none => none
  | some s => (parseDateL s.toList).map (fun cs => String.mk cs)

/-! ## `formatDateForAthena` (patient-creator/index.js lines 111-118) -/

/-- Rebuild `MM/DD/YYYY` from the parts of an ISO split with exactly three
parts; any other number of parts leaves the input unchanged. -/
def formatParts : List (List Char) → Option (List Char)
  | [a, b, c] => some (b ++ '/' :: (c ++ '/' :: a))
  | _ => none

def formatDateForAthena (isoDate : Option String) : String :=
  match isoDate with
  | none => ""
  | some s =>
    if s = "" then ""
    else
      match formatParts (splitOnChar '-' s.toList) with
      | some out => String.mk out
      | none => s

/-! ## Phone cleaning (patient-creator/index.js lines 121-138 and
bland-webhook/index.js lines 22-32) -/

/-- The NANP position rule: a digit in `2`-`9`. -/
def nanpDigit (c : Char) : Bool := '2' ≤ c && c ≤ '9'

/-- `cleanPhone` from the patient creator: strip non-digits, drop a leading
`1` of an 11-digit number, then keep the result only if it is 10 digits with
the first and fourth digit each in `2`-`9`. -/
def cleanPhone (phone : String) : String :=
  if phone = "" then ""
  else
    let cleaned0 := phone.toList.filter isDigitChar
    let cleaned :=
      if cleaned0.length = 11 && cleaned0.headD ' ' = '1' then cleaned0.tail else cleaned0
    if cleaned.length = 10 && nanpDigit (cleaned.getD 0 ' ') && nanpDigit (cleaned.getD 3 ' ')
    then String.mk cleaned
    else ""

/-- `parsePhoneNumber` from the webhook ingress; identical normalization with
an explicit `String(...)` coercion, an absent value giving the empty result. -/
def parsePhoneNumber (phone : Option String) : String :=
  match phone with
  | none => ""
  | some p =>
    if p = "" then ""
    else
      let cleaned0 := p.toList.filter isDigitChar
      let cleaned :=
        if cleaned0.length = 11 && cleaned0.headD ' ' = '1' then cleaned0.tail else cleaned0
      if cleaned.length = 10 && nanpDigit (cleaned.getD 0 ' ') && nanpDigit (cleaned.getD 3 ' ')
      then String.mk cleaned
      else ""

/-! ## Sex and state normalization (patient-creator/index.js) -/

/-- `normalizeSex`: strip double quotes, trim, upper-case, then map the
recognized spellings to `M`/`F`. -/
def normalizeSex (value : String) : String :=
  let cleaned := String.mk ((jsTrim (value.toList.filter (fun c => c ≠ '"'))).map upperChar)
  if cleaned = "MAN" || cleaned = "M" || cleaned = "MALE" then "M"
  else if cleaned = "WOMAN" || cleaned = "F" || cleaned = "FEMALE" then "F"
  else ""

def STATE_ABBREVIATIONS : List (String × String) :=
  [("alabama", "AL"), ("alaska", "AK"), ("arizona", "AZ"), ("arkansas", "AR"),
   ("california", "CA"), ("colorado", "CO"), ("connecticut", "CT"), ("delaware", "DE"),
   ("florida", "FL"), ("georgia", "GA"), ("hawaii", "HI"), ("idaho", "ID"),
   ("illinois", "IL"), ("indiana", "IN"), ("iowa", "IA"), ("kansas", "KS"),
   ("kentucky", "KY"), ("louisiana", "LA"), ("maine", "ME"), ("maryland", "MD"),
   ("massachusetts", "MA"), ("michigan", "MI"), ("minnesota", "MN"), ("mississippi", "MS"),
   ("missouri", "MO"), ("montana", "MT"), ("nebraska", "NE"), ("nevada", "NV"),
   ("new hampshire", "NH"), ("new jersey", "NJ"), ("new mexico", "NM"), ("new york", "NY"),
   ("north carolina", "NC"), ("north dakota", "ND"), ("ohio", "OH"), ("oklahoma", "OK"),
   ("oregon", "OR"), ("pennsylvania", "PA"), ("rhode island", "RI"), ("south carolina", "SC"),
   ("south dakota", "SD"), ("tennessee", "TN"), ("texas", "TX"), ("utah", "UT"),
   ("vermont", "VT"), ("virginia", "VA"), ("washington", "WA"), ("west virginia", "WV"),
   ("wisconsin", "WI"), ("wyoming", "WY")]

/-- `getStateAbbreviation`: two-letter inputs are upper-cased; full state
names are looked up; anything else passes through. -/
def getStateAbbreviation (stateName : String) : String :=
  if stateName = "" then ""
  else if stateName.length = 2 then String.mk (stateName.toList.map upperChar)
  else
    match STATE_ABBREVIATIONS.find?
        (fun p => p.1 = String.mk (stateName.toList.map lowerChar)) with
    | some p => p.2
    | none => stateName

/-! ## Verbal numbers and street addresses (patient-creator/index.js) -/

def VERBAL_NUMBERS : List (String × String) :=
  [("zero", "0"), ("one", "1"), ("two", "2"), ("three", "3"), ("four", "4"),
   ("five", "5"), ("six", "6"), ("seven", "7"), ("eight", "8"), ("nine", "9"),
   ("ten", "10"), ("eleven", "11"), ("twelve", "12"), ("thirteen", "13"),
   ("fourteen", "14"), ("fifteen", "15"), ("sixteen", "16"), ("seventeen", "17"),
   ("eighteen", "18"), ("nineteen", "19"), ("twenty", "20"),
   ("thirty", "30"), ("forty", "40"), ("fifty", "50"), ("sixty", "60"),
   ("seventy", "70"), ("eighty", "80"), ("ninety", "90"),
   ("hundred", "100"), ("thousand", "1000")]

def lookupVerbal (s : String) : Option String :=
  (VERBAL_NUMBERS.find? (fun p => p.1 = s)).map (fun p => p.2)

/-- A separator of JS regex `/[\s-]+/`. -/
def isSepChar (c : Char) : Bool := isWsChar c || c = '-'

/-- JS `split(/[\s-]+/)`: split on maximal runs of whitespace or dashes. -/
def splitSeps : List Char → List (List Char)
  | [] => [[]]
  | c :: cs =>
    if isSepChar c then [] :: splitSeps (cs.dropWhile isSepChar)
    else
      let r := splitSeps cs
      (c :: r.headD []) :: r.tail
  termination_by l => l.length
  decreasing_by
    · simp only [List.length_cons]
      exact Nat.lt_succ_of_le (List.Sublist.length_le (List.dropWhile_sublist _))
    · simp

/-- The accumulation loop over the parts of a compound verbal number. -/
def compoundLoop : List String → Nat → Nat → Nat
  | [], total, current => total + current
  | p :: ps, total, current =>
    match lookupVerbal p with
    | none => compoundLoop ps total current
    | some nstr =>
      let value := parseNat nstr.toList
      if p = "hundred" then
        compoundLoop ps total ((if current = 0 then 1 else current) * 100)
      else if p = "thousand" then
        compoundLoop ps (total + (if current = 0 then 1 else current) * 1000) 0
      else compoundLoop ps total (current + value)

/-- `convertVerbalToNumeric`: plain numerals pass through, single verbal
number words are mapped, compound words are accumulated, ordinals lose their
suffix, and anything else is returned unchanged. -/
def convertVerbalToNumeric (verbalText : String) : String :=
  if verbalText = "" then ""
  else
    let cleanedL := (jsTrim verbalText.toList).map lowerChar
    let cleaned := String.mk cleanedL
    if cleanedL ≠ [] && cleanedL.all isDigitChar then cleaned
    else
      match lookupVerbal cleaned with
      | some n => n
      | none =>
        let viaCompound : Option String :=
          if cleanedL.any (fun c => c = '-' || c = ' ') then
            let parts := (splitSeps cleanedL).map String.mk
            let total := compoundLoop parts 0 0
            if 0 < total then some (String.mk (natDigits total)) else none
          else none
        match viaCompound with
        | some r => r
        | none =>
          let ds := cleanedL.takeWhile isDigitChar
          let sfx := cleanedL.dropWhile isDigitChar
          if ds ≠ [] && (sfx = ['s', 't'] || sfx = ['n', 'd'] || sfx = ['r', 'd'] || sfx = ['t', 'h'])
          then String.mk ds
          else verbalText

/-- `buildStreetAddress`: join the numeric house number and the cleaned
street, whichever are present. -/
def buildStreetAddress (houseNumber street : String) : String :=
  let numericHouseNumber := convertVerbalToNumeric houseNumber
  let cleanedStreet :=
    if street = "" then "" else String.mk ((jsTrim street.toList).filter (fun c => c ≠ '"'))
  if numericHouseNumber ≠ "" && cleanedStreet ≠ "" then
    numericHouseNumber ++ " " ++ cleanedStreet
  else if cleanedStreet ≠ "" then cleanedStreet
  else if numericHouseNumber ≠ "" then numericHouseNumber
  else ""

/-! ## `parseAddress` (bland-webhook/index.js lines 60-96) -/

structure AddressParts where
  houseNumber : String := ""
  street : String := ""
  city : String := ""
  state : String := ""
  zip : String := ""
  deriving DecidableEq, Repr

/-- First match of JS regex `/(\d{5})/`: the first position where five
consecutive digits begin. -/
def firstFiveDigitRun : List Char → Option (List Char)
  | c1 :: c2 :: c3 :: c4 :: c5 :: rest =>
    if isDigitChar c1 && isDigitChar c2 && isDigitChar c3 && isDigitChar c4 && isDigitChar c5
    then some [c1, c2, c3, c4, c5]
    else firstFiveDigitRun (c2 :: c3 :: c4 :: c5 :: rest)
  | _ => none

/-- JS `replace(sub, '')`: remove the first occurrence of a substring. -/
def removeFirstSub (needle : List Char) : List Char → List Char
  | [] => []
  | c :: cs =>
    if startsList needle (c :: cs) then (c :: cs).drop needle.length
    else c :: removeFirstSub needle cs

/-- The anchored JS regex `^(\d+|\w+)\s+(.+)$` applied to a trimmed street
part: a leading word-character token, some whitespace, then the rest (which
may not contain a line terminator). -/
def streetMatch (s : List Char) : Option (List Char × List Char) :=
  let tok := s.takeWhile isWordChar
  let rest1 := s.dropWhile isWordChar
  let ws := rest1.takeWhile isWsChar
  let rest := rest1.dropWhile isWsChar
  if tok ≠ [] && ws ≠ [] && rest ≠ [] && rest.all (fun c => c ≠ '\n' && c ≠ '\r')
  then some (tok, rest)
  else none

/-- `parseAddress`: split a free-text address on commas into street part,
city, and state/zip part.  A falsy input yields the JS empty object,
modelled as the record with every field empty. -/
def parseAddress (addressString : Option String) : AddressParts :=
  match addressString with
  | none => {}
  | some s =>
    if s = "" then {}
    else
      let addr := jsTrim s.toList
      let parts := (splitOnChar ',' addr).map jsTrim
      let r0 : AddressParts := {}
      let r1 :=
        match parts with
        | p0 :: _ =>
          match streetMatch p0 with
          | some (h, st) => { r0 with houseNumber := String.mk h, street := String.mk st }
          | none => { r0 with street := String.mk p0 }
        | [] => r0
      let r2 := if 2 ≤ parts.length then { r1 with city := String.mk (parts.getD 1 []) } else r1
      if 3 ≤ parts.length then
        let stateZip := parts.getD 2 []
        match firstFiveDigitRun stateZip with
        | some z =>
          { r2 with zip := String.mk z,
                    state := String.mk (jsTrim (removeFirstSub z stateZip)) }
        | none => { r2 with state := String.mk stateZip }
      else r2

/-! ## The intake queue data model

A document of the `patient_intake_queue` Firestore collection.  Payload
fields are strings with the empty string standing for an absent
(`undefined`) value wherever the source only ever tests their truthiness;
`dateOfBirth` keeps the absent/present distinction because the webhook
stores the (nullable) result of `parseDate` there.  Timestamps are
milliseconds.  The queue itself is an association list from document id to
document; Firestore document ids in one collection are distinct. -/

structure IntakeRecord where
  status : String := ""
  firstName : String := ""
  lastName : String := ""
  dateOfBirth : Option String := none
  phone : String := ""
  email : String := ""
  sex : String := ""
  houseNumber : String := ""
  street : String := ""
  city : String := ""
  state : String := ""
  zip : String := ""
  preferredDate : String := ""
  preferredTime : String := ""
  reasonForVisit : String := ""
  source : String := ""
  callId : String := ""
  pathwayId : String := ""
  appointmentId : String := ""
  appointmentTypeId : String := ""
  athenaPatientId : String := ""
  error : Option String := none
  createdAt : Option Nat := none
  processingStarted : Option Nat := none
  completedAt : Option Nat := none
  errorAt : Option Nat := none
  retryCount : Option Nat := none
  deriving DecidableEq, Repr

abbrev Queue := List (String × IntakeRecord)

/-- Firestore `doc(id).update(f)`: apply the field update to the document
with the given id; `none` models the NOT_FOUND rejection when the document
does not exist. -/
def updateRecord (q : Queue) (id : String) (f : IntakeRecord → IntakeRecord) : Option Queue :=
  if q.any (fun p => p.1 = id) then
    some (q.map (fun p => if p.1 = id then (p.1, f p.2) else p))
  else none

/-- The field update of the terminal completion transition
(patient-creator/index.js lines 250-254). -/
def setCompleted (r : IntakeRecord) (athenaPatientId : String) (now : Nat) : IntakeRecord :=
  { r with status := "completed", athenaPatientId := athenaPatientId, completedAt := some now }

/-- The field update of the terminal error transition
(patient-creator/index.js lines 298-302). -/
def setError (r : IntakeRecord) (msg : String) (now : Nat) : IntakeRecord :=
  { r with status := "error", error := some msg, errorAt := some now }

/-- `markCompleted`: the completion update applied to the intake queue. -/
def markCompleted (q : Queue) (id athenaPatientId : String) (now : Nat) : Option Queue :=
  updateRecord q id (fun r => setCompleted r athenaPatientId now)

/-- `markError`: the error update applied to the intake queue. -/
def markError (q : Queue) (id msg : String) (now : Nat) : Option Queue :=
  updateRecord q id (fun r => setError r msg now)

/-! ## The queue-claim dispatcher (`processIntakeQueue`, src/unnamed/part_004) -/

/-- The message published to the `create-patient` topic: the document id
spread together with the document data read from the claim-time snapshot. -/
structure PatientMsg where
  id : String := ""
  firstName : String := ""
  lastName : String := ""
  dateOfBirth : Option String := none
  phone : String := ""
  email : String := ""
  sex : String := ""
  houseNumber : String := ""
  street : String := ""
  city : String := ""
  state : String := ""
  zip : String := ""
  appointmentId : String := ""
  appointmentTypeId : String := ""
  deriving DecidableEq, Repr

/-- `{id: doc.id, ...patientData}`: projection of a queue document onto the
fields the patient-creation stage consumes. -/
def msgOfRecord (id : String) (r : IntakeRecord) : PatientMsg :=
  { id := id, firstName := r.firstName, lastName := r.lastName,
    dateOfBirth := r.dateOfBirth, phone := r.phone, email := r.email,
    sex := r.sex, houseNumber := r.houseNumber, street := r.street,
    city := r.city, state := r.state, zip := r.zip,
    appointmentId := r.appointmentId, appointmentTypeId := r.appointmentTypeId }

/-- The `where status == pending, limit 10` query snapshot. -/
def pendingBatch (q : Queue) : Queue :=
  (q.filter (fun p => p.2.status = "pending")).take 10

/-- The claim-time field update: mark as processing and stamp the
processing-started time. -/
def claimRecord (r : IntakeRecord) (now : Nat) : IntakeRecord :=
  { r with status := "processing", processingStarted := some now }

/-- `processIntakeQueue`: query up to ten `pending` documents, transition
each to `processing` with a processing-started stamp, and publish each
snapshot document to the `create-patient` topic.  Returns the updated queue
and the published messages in order. -/
def processIntakeQueue (q : Queue) (now : Nat) : Queue × List PatientMsg :=
  let snapshot := pendingBatch q
  (q.map (fun p => if snapshot.any (fun d => d.1 = p.1) then (p.1, claimRecord p.2 now) else p),
   snapshot.map (fun d => msgOfRecord d.1 d.2))

/-! ## JS truthiness helpers for string-typed fields -/

/-- The value of an optional JSON string field, `undefined` reading as the
empty string (both are falsy and the source only tests truthiness). -/
def optStr (o : Option String) : String :=
  match o with
  | some s => s
  | none => ""

/-- JS `a || b` on string values. -/
def strOr (a b : String) : String := if a = "" then b else a

/-- JS `a || b` keeping the option structure (used where the result feeds a
function distinguishing absent from empty). -/
def jsOr (a b : Option String) : Option String :=
  match a with
  | some s => if s ≠ "" then some s else b
  | none => b

/-- Firestore `doc(id).set(v)`: overwrite the document with this id, or
create it. -/
def setDoc {α : Type} (coll : List (String × α)) (id : String) (v : α) :
    List (String × α) :=
  if coll.any (fun p => p.1 = id) then
    coll.map (fun p => if p.1 = id then (p.1, v) else p)
  else coll ++ [(id, v)]

/-! ## The patient-creation stage (`createAthenaPatient`,
src/functions/patient-creator/index.js lines 156-306)

External effects are oracles: the stored credential document is a
parameter, the secret fetches always succeed (their values do not influence
control flow), and the AthenaHealth HTTP call is an `Except` parameter —
`ok` carries the extracted `patientid`, `error` the thrown message. -/

structure StoredToken where
  token : String := ""
  type : String := "Bearer"
  service : String := "Athenahealth"
  createdAt : Nat := 0
  expiresAt : Int := 0
  expiresIn : Nat := 3600
  scope : String := ""
  environment : String := "production"
  lastRefreshed : Nat := 0
  refreshCount : Nat := 0
  deriving DecidableEq, Repr

/-- An entry of the `errors` collection (type tag and message; the raw
request context stored alongside is elided). -/
structure ErrorEntry where
  type : String
  error : String
  deriving DecidableEq, Repr

/-- A message on the `book-appointment` topic. -/
structure BookMsg where
  patientId : String
  appointmentId : String
  appointmentTypeId : String
  originalRecordId : String
  deriving DecidableEq, Repr

/-- A message on the `patient-activity` topic. -/
structure ActivityMsg where
  patientId : String
  lastName : String
  activityType : String
  status : String
  source : String := ""
  deriving DecidableEq, Repr

/-- A document of the `patients` collection. -/
structure PatientDoc where
  data : PatientMsg
  athenaPatientId : String
  athenaCreatedAt : Nat
  status : String
  streetAddress : String
  deriving DecidableEq, Repr

structure CreatorState where
  queue : Queue := []
  patients : List (String × PatientDoc) := []
  errors : List ErrorEntry := []
  bookMsgs : List BookMsg := []
  activityMsgs : List ActivityMsg := []
  deriving DecidableEq, Repr

/-- The catch block of `createAthenaPatient`: log the error, set the intake
record to `error` status, and rethrow.  When the intake document is missing
the `update` itself rejects and that rejection propagates instead. -/
def creatorCatch (st : CreatorState) (msg : PatientMsg) (emsg : String) (now : Nat) :
    CreatorState × Except String String :=
  let st1 := { st with errors := st.errors ++ [⟨"patient_creation", emsg⟩] }
  match markError st1.queue msg.id emsg now with
  | some q => ({ st1 with queue := q }, Except.error emsg)
  | none => (st1, Except.error ("5 NOT_FOUND: no document to update: " ++ msg.id))

def createAthenaPatient (st : CreatorState) (msg : PatientMsg) (token : Option StoredToken)
    (apiResult : Except String String) (now : Nat) : CreatorState × Except String String :=
  match token with
  | none => creatorCatch st msg "No valid token found. Run token refresh first." now
  | some _tokenData =>
    let streetAddress := buildStreetAddress msg.houseNumber msg.street
    let cleanedPhone := cleanPhone msg.phone
    let formattedDob := formatDateForAthena msg.dateOfBirth
    -- sex and state are normalized into the outgoing API payload, which the
    -- apiResult oracle abstracts; they do not influence control flow
    let _normalizedSex := normalizeSex msg.sex
    let _stateAbbr := getStateAbbreviation msg.state
    if msg.firstName = "" || msg.lastName = "" || formattedDob = "" then
      creatorCatch st msg "Missing required fields: firstname, lastname, or DOB" now
    else if msg.email = "" && cleanedPhone = "" && msg.zip = "" then
      creatorCatch st msg "At least one contact method (email, phone, or ZIP) is required" now
    else
      match apiResult with
      | Except.error e => creatorCatch st msg e now
      | Except.ok athenaPatientId =>
        let pdoc : PatientDoc :=
          { data := msg, athenaPatientId := athenaPatientId, athenaCreatedAt := now,
            status := "created", streetAddress := streetAddress }
        let st1 := { st with patients := setDoc st.patients msg.id pdoc }
        -- the patients write does not touch the queue, so the queue update
        -- reads the incoming queue state
        match markCompleted st.queue msg.id athenaPatientId now with
        | none => creatorCatch st1 msg ("5 NOT_FOUND: no document to update: " ++ msg.id) now
        | some q2 =>
          let st2 := { st1 with queue := q2 }
          let st3 :=
            if msg.appointmentId ≠ "" then
              { st2 with bookMsgs := st2.bookMsgs ++
                [{ patientId := athenaPatientId, appointmentId := msg.appointmentId,
                   appointmentTypeId := strOr msg.appointmentTypeId "15",
                   originalRecordId := msg.id }] }
            else st2
          let st4 := { st3 with activityMsgs := st3.activityMsgs ++
            [{ patientId := athenaPatientId, lastName := msg.lastName,
               activityType := "PATIENT_CREATED", status := "success" }] }
          (st4, Except.ok athenaPatientId)

/-! ## The webhook ingress (`blandWebhook`,
src/functions/bland-webhook/index.js lines 99-205) -/

structure WebhookVars where
  first_name : Option String := none
  firstName : Option String := none
  last_name : Option String := none
  lastName : Option String := none
  date_of_birth : Option String := none
  dob : Option String := none
  birthdate : Option String := none
  phone : Option String := none
  email : Option String := none
  gender : Option String := none
  sex : Option String := none
  address : Option String := none
  full_address : Option String := none
  house_number : Option String := none
  street : Option String := none
  city : Option String := none
  state : Option String := none
  zip : Option String := none
  preferred_date : Option String := none
  preferred_time : Option String := none
  reason_for_visit : Option String := none
  deriving DecidableEq, Repr

structure WebhookReq where
  call_id : String := ""
  pathway_id : String := ""
  status : Option String := none
  phone_number : Option String := none
  vars : WebhookVars := {}
  deriving DecidableEq, Repr

def webFirstName (v : WebhookVars) : String :=
  strOr (optStr v.first_name) (optStr v.firstName)

def webLastName (v : WebhookVars) : String :=
  strOr (optStr v.last_name) (optStr v.lastName)

def webDobInput (v : WebhookVars) : Option String :=
  jsOr (jsOr v.date_of_birth v.dob) v.birthdate

def webEmail (v : WebhookVars) : String := optStr v.email

def webPhone (v : WebhookVars) (phoneNumber : Option String) : String :=
  parsePhoneNumber (jsOr v.phone phoneNumber)

def webZip (v : WebhookVars) : String :=
  strOr (optStr v.zip) (parseAddress v.address).zip

/-- The patient data object the ingress webhook builds.  The object spread
of `parseAddress(variables.address || variables.full_address)` is fully
shadowed by the five explicit address keys that follow it in the object
literal (which consult only `variables.address`), so the embedding keeps
just the effective fields. -/
def webPatientData (req : WebhookReq) (now : Nat) : IntakeRecord :=
  let v := req.vars
  { firstName := webFirstName v,
    lastName := webLastName v,
    dateOfBirth := parseDate (webDobInput v),
    phone := webPhone v req.phone_number,
    email := webEmail v,
    sex := strOr (optStr v.gender) (optStr v.sex),
    houseNumber := strOr (optStr v.house_number) (parseAddress v.address).houseNumber,
    street := strOr (optStr v.street) (parseAddress v.address).street,
    city := strOr (strOr (optStr v.city) (parseAddress v.address).city) "Las Vegas",
    state := strOr (strOr (optStr v.state) (parseAddress v.address).state) "Nevada",
    zip := webZip v,
    preferredDate := optStr v.preferred_date,
    preferredTime := optStr v.preferred_time,
    reasonForVisit := optStr v.reason_for_visit,
    source := "bland_ai",
    callId := req.call_id,
    pathwayId := req.pathway_id,
    status := "pending",
    createdAt := some now }

/-- The required-field errors list, in push order. -/
def webErrors (pd : IntakeRecord) : List String :=
  (if pd.firstName = "" then ["Missing first name"] else []) ++
  (if pd.lastName = "" then ["Missing last name"] else []) ++
  (if pd.dateOfBirth = none then ["Missing date of birth"] else []) ++
  (if pd.email = "" && pd.phone = "" && pd.zip = "" then ["Missing contact information"] else [])

structure FailedCallEntry where
  callId : String
  status : Option String
  deriving DecidableEq, Repr

structure IncompleteEntry where
  callId : String
  errors : List String
  data : IntakeRecord
  deriving DecidableEq, Repr

structure ProcessQueueMsg where
  trigger : String
  urgent : Bool
  recordId : String := ""
  deriving DecidableEq, Repr

structure WebhookState where
  intakeQueue : Queue := []
  failedCalls : List FailedCallEntry := []
  incompleteRecords : List IncompleteEntry := []
  activityMsgs : List ActivityMsg := []
  processQueueMsgs : List ProcessQueueMsg := []
  deriving DecidableEq, Repr

inductive WebhookResp where
  | notProcessed (reason : String)
  | notProcessedErrors (errors : List String)
  | accepted (patientQueueId : String)
  | serverError (error : String)
  deriving DecidableEq, Repr

/-- The main ingress handler.  `freshId` is the auto-generated Firestore
document id, `now` the wall clock in milliseconds, `hour` the local hour
used for the urgent-processing trigger. -/
def blandWebhookMain (st : WebhookState) (req : WebhookReq) (freshId : String)
    (now : Nat) (hour : Nat) : Nat × WebhookResp × WebhookState :=
  if ¬(req.status = some "completed" ∨ req.status = some "success") then
    (200, WebhookResp.notProcessed "Call not completed",
     { st with failedCalls := st.failedCalls ++ [⟨req.call_id, req.status⟩] })
  else
    let patientData := webPatientData req now
    let errors := webErrors patientData
    if errors ≠ [] then
      (200, WebhookResp.notProcessedErrors errors,
       { st with incompleteRecords := st.incompleteRecords ++ [⟨req.call_id, errors, patientData⟩] })
    else
      let st1 := { st with intakeQueue := st.intakeQueue ++ [(freshId, patientData)] }
      let st2 := { st1 with activityMsgs := st1.activityMsgs ++
        [{ patientId := freshId, lastName := patientData.lastName,
           activityType := "INTAKE_RECEIVED", status := "pending", source := "bland_ai" }] }
      let st3 :=
        if 8 ≤ hour ∧ hour ≤ 18 then
          { st2 with processQueueMsgs := st2.processQueueMsgs ++ [⟨"bland_webhook", true, ""⟩] }
        else st2
      (200, WebhookResp.accepted freshId, st3)

/-! ## The direct-publish webhook (src/unnamed/part_002 lines 16-125)

This variant stores the intake document with status `pending` and publishes
the patient data straight to the `create-patient` topic, without going
through the queue-claim dispatcher.  The HMAC signature comparison is an
oracle: `signatureMismatch` is true when a signature header and a configured
secret are present and do not match. -/

structure Part2Vars where
  first_name : Option String := none
  last_name : Option String := none
  date_of_birth : Option String := none
  phone : Option String := none
  email : Option String := none
  sex : Option String := none
  house_number : Option String := none
  street : Option String := none
  city : Option String := none
  state : Option String := none
  zip : Option String := none
  selected_appointment_id : Option String := none
  selected_appointment_type_id : Option String := none
  deriving DecidableEq, Repr

structure Part2Req where
  call_id : String := ""
  pathway_id : String := ""
  status : Option String := none
  vars : Part2Vars := {}
  signatureMismatch : Bool := false
  deriving DecidableEq, Repr

inductive Part2Resp where
  | unauthorized
  | success (patientQueueId : String)
  deriving DecidableEq, Repr

structure Part2State where
  intakeQueue : Queue := []
  createPatientMsgs : List PatientMsg := []
  deriving DecidableEq, Repr

/-- Embed the published patient data into an intake-queue document (the
stored document spreads the same fields). -/
def recordOfMsg (m : PatientMsg) : IntakeRecord :=
  { firstName := m.firstName, lastName := m.lastName, dateOfBirth := m.dateOfBirth,
    phone := m.phone, email := m.email, sex := m.sex, houseNumber := m.houseNumber,
    street := m.street, city := m.city, state := m.state, zip := m.zip,
    appointmentId := m.appointmentId, appointmentTypeId := m.appointmentTypeId }

def part2PatientData (req : Part2Req) (nowMs : Nat) : PatientMsg :=
  let v := req.vars
  { id := req.call_id ++ "_" ++ String.mk (natDigits nowMs),
    firstName := optStr v.first_name,
    lastName := optStr v.last_name,
    dateOfBirth := v.date_of_birth,
    phone := optStr v.phone,
    email := optStr v.email,
    sex := optStr v.sex,
    houseNumber := optStr v.house_number,
    street := optStr v.street,
    city := optStr v.city,
    state := optStr v.state,
    zip := optStr v.zip,
    appointmentId := optStr v.selected_appointment_id,
    appointmentTypeId := strOr (optStr v.selected_appointment_type_id) "15" }

def part2Webhook (st : Part2State) (req : Part2Req) (nowMs : Nat) :
    Nat × Part2Resp × Part2State :=
  if req.signatureMismatch then (401, Part2Resp.unauthorized, st)
  else
    let patientData := part2PatientData req nowMs
    let doc : IntakeRecord :=
      { recordOfMsg patientData with
          status := "pending", createdAt := some nowMs, retryCount := some 0 }
    let st1 := { st with intakeQueue := setDoc st.intakeQueue patientData.id doc }
    let st2 := { st1 with createPatientMsgs := st1.createPatientMsgs ++ [patientData] }
    (200, Part2Resp.success patientData.id, st2)

/-! ## The cleaned-data webhook variant (src/unnamed/part_000 lines 275-356)

After the intake document is created, the handler logs
`if (appointmentData) ...` — but no binding named `appointmentData` exists
anywhere in the function, so evaluating it throws a `ReferenceError`, which
the catch block turns into a 500 response.  The continuation after that
line is transcribed in the dead branch. -/

def jsUndeclared (name : String) : Except String Bool :=
  Except.error (name ++ " is not defined")

structure CleanState where
  intakeQueue : Queue := []
  processQueueMsgs : List ProcessQueueMsg := []
  deriving DecidableEq, Repr

inductive CleanResp where
  | success (patientQueueId : String) (appointmentFound : Bool)
  | failure (error : String)
  deriving DecidableEq, Repr

def cleanPatientData (req : Part2Req) (now : Nat) : IntakeRecord :=
  let v := req.vars
  { firstName := optStr v.first_name,
    lastName := optStr v.last_name,
    dateOfBirth := v.date_of_birth,
    phone := optStr v.phone,
    email := optStr v.email,
    sex := optStr v.sex,
    houseNumber := optStr v.house_number,
    street := optStr v.street,
    city := strOr (optStr v.city) "Las Vegas",
    state := strOr (optStr v.state) "Nevada",
    zip := optStr v.zip,
    appointmentId := optStr v.selected_appointment_id,
    appointmentTypeId := optStr v.selected_appointment_type_id,
    source := "bland_ai",
    callId := req.call_id,
    pathwayId := req.pathway_id,
    status := "pending",
    createdAt := some now }

def cleanedWebhookTry (st : CleanState) (req : Part2Req) (freshId : String) (now : Nat) :
    CleanState × Except String CleanResp :=
  let patientData := cleanPatientData req now
  let st1 := { st with intakeQueue := st.intakeQueue ++ [(freshId, patientData)] }
  match jsUndeclared "appointmentData" with
  | Except.error e => (st1, Except.error e)
  | Except.ok appointmentData =>
    let st2 := { st1 with processQueueMsgs := st1.processQueueMsgs ++
      [⟨"bland_webhook", true, freshId⟩] }
    (st2, Except.ok (CleanResp.success freshId appointmentData))

def cleanedWebhook (st : CleanState) (req : Part2Req) (freshId : String) (now : Nat) :
    Nat × CleanResp × CleanState :=
  match cleanedWebhookTry st req freshId now with
  | (st', Except.ok resp) => (200, resp, st')
  | (st', Except.error e) => (500, CleanResp.failure e, st')

/-! ## The token refresh stage (`refreshAthenaToken`, src/unnamed/part_003) -/

structure TokenResponse where
  access_token : String := ""
  expires_in : Option Nat := none
  scope : Option String := none
  deriving DecidableEq, Repr

structure ErrNotif where
  function : String
  error : String
  deriving DecidableEq, Repr

structure TokenState where
  apiToken : Option StoredToken := none
  errorsLog : List ErrorEntry := []
  refreshLog : List (String × Nat) := []
  errorNotifications : List ErrNotif := []
  deriving DecidableEq, Repr

/-- `refreshAthenaToken`: on a successful upstream fetch, compute the
safety-buffered expiry and overwrite the credential singleton; on a failed
fetch, log, publish an error notification, and rethrow — without touching
the stored credential. -/
def refreshAthenaToken (st : TokenState) (fetchResult : Except String TokenResponse)
    (now : Nat) : TokenState × Except String Int :=
  match fetchResult with
  | Except.error e =>
    let st1 := { st with errorsLog :=
      st.errorsLog ++ [({ type := "token_refresh", error := e } : ErrorEntry)] }
    let st2 := { st1 with errorNotifications :=
      st1.errorNotifications ++ [({ function := "oauth-manager", error := e } : ErrNotif)] }
    (st2, Except.error e)
  | Except.ok resp =>
    let expiresIn : Nat :=
      match resp.expires_in with
      | some n => if n = 0 then 3600 else n
      | none => 3600
    let safetyBuffer : Nat := 600
    let expiresAt : Int := (now : Int) + ((expiresIn : Int) - safetyBuffer) * 1000
    let refreshCount : Nat :=
      match st.apiToken with
      | some prev => prev.refreshCount + 1
      | none => 0
    let tokenData : StoredToken :=
      { token := resp.access_token, type := "Bearer", service := "Athenahealth",
        createdAt := now, expiresAt := expiresAt, expiresIn := expiresIn,
        scope := optStr resp.scope, environment := "production",
        lastRefreshed := now, refreshCount := refreshCount }
    let st1 := { st with apiToken := some tokenData }
    let st2 := { st1 with refreshLog := st1.refreshLog ++ [("success", now)] }
    (st2, Except.ok expiresAt)

/-! ## The reconciler (`reprocessFailedIntakes`, src/scripts/test-flow.js) -/

/-- The re-queue field update: back to `pending` with error and
processing-started fields cleared (set to null). -/
def resetRecord (r : IntakeRecord) : IntakeRecord :=
  { r with status := "pending", error := none, errorAt := none, processingStarted := none }

/-- The re-queue condition of one snapshot document: status `error`, or
status `processing` started strictly before the cutoff. -/
def shouldReset (r : IntakeRecord) (cutoff : Nat) : Bool :=
  r.status = "error" ||
    (r.status = "processing" &&
      (match r.processingStarted with
       | some t => decide (t < cutoff)
       | none => false))

def reconcileEntry (cutoff : Nat) (p : String × IntakeRecord) : String × IntakeRecord :=
  if shouldReset p.2 cutoff then (p.1, resetRecord p.2) else p

/-- One pass of `reprocessFailedIntakes`.  The cutoff is fifteen minutes
before `now` (at `now < 900000` the Nat cutoff truncates to zero, and no
timestamp is below either the truncated or the negative JS cutoff, so the
truncation is harmless).  The JS crashes with a TypeError when a
`processing` document lacks `processingStarted` (it dereferences
`.toDate()` on it); that malformed case is modelled as `none`.  Documents
whose status is neither `error` nor `processing` are outside the query
snapshot and untouched. -/
def reprocessFailedIntakes (q : Queue) (now : Nat) : Option Queue :=
  let cutoff := now - 15 * 60 * 1000
  if q.all (fun p => p.2.status ≠ "processing" || p.2.processingStarted.isSome) then
    some (q.map (reconcileEntry cutoff))
  else none

/-! ## Shared lemmas about queue updates -/

theorem updateMap_idem (q : Queue) (id : String) (f : IntakeRecord → IntakeRecord)
    (hf : ∀ r, f (f r) = f r) :
    (q.map (fun p => if p.1 = id then (p.1, f p.2) else p)).map
        (fun p => if p.1 = id then (p.1, f p.2) else p)
      = q.map (fun p => if p.1 = id then (p.1, f p.2) else p) := by
  induction q with
  | nil => rfl
  | cons a as ih =>
    simp only [List.map_cons, ih]
    congr 1
    by_cases ha : a.1 = id
    · simp [ha, hf]
    · simp [ha]

theorem updateAny_same (q : Queue) (id : String) (f : IntakeRecord → IntakeRecord) :
    (q.map (fun p => if p.1 = id then (p.1, f p.2) else p)).any (fun p => p.1 = id)
      = q.any (fun p => p.1 = id) := by
  induction q with
  | nil => rfl
  | cons a as ih =>
    simp only [List.map_cons, List.any_cons, ih]
    congr 1
    by_cases ha : a.1 = id
    · simp [ha]
    · simp [ha]

theorem updateRecord_idem (q : Queue) (id : String) (f : IntakeRecord → IntakeRecord)
    (hf : ∀ r, f (f r) = f r) (q' : Queue) (h : updateRecord q id f = some q') :
    updateRecord q' id f = some q' := by
  unfold updateRecord at h ⊢
  by_cases hany : q.any (fun p => p.1 = id) = true
  · rw [if_pos hany] at h
    injection h with h
    subst h
    rw [if_pos ((updateAny_same q id f).trans hany), updateMap_idem q id f hf]
  · rw [if_neg hany] at h
    exact absurd h (by simp)

theorem updateRecord_fields (q : Queue) (id : String) (f : IntakeRecord → IntakeRecord)
    (q' : Queue) (h : updateRecord q id f = some q') :
    ∀ p ∈ q', p.1 = id → ∃ r, (id, r) ∈ q ∧ p.2 = f r := by
  unfold updateRecord at h
  by_cases hany : q.any (fun p => p.1 = id) = true
  · rw [if_pos hany] at h
    injection h with h
    subst h
    intro p hp hid
    rcases List.mem_map.mp hp with ⟨orig, horig, hfo⟩
    by_cases ho : orig.1 = id
    · rw [if_pos ho] at hfo
      refine ⟨orig.2, ?_, ?_⟩
      · rw [← ho]
        exact horig
      · rw [← hfo]
    · rw [if_neg ho] at hfo
      subst hfo
      exact absurd hid ho
  · rw [if_neg hany] at h
    exact absurd h (by simp)

/-! ## Claim theorems -/

/-- C2: the terminal transitions `markCompleted` and `markError` are
idempotent — applying the same transition with the same outcome arguments a
second time succeeds and leaves the queue exactly as it was after the first
application. -/
theorem mark_terminal_idempotent (q : Queue) (id pid emsg : String) (now : Nat) :
    (∀ q', markCompleted q id pid now = some q' → markCompleted q' id pid now = some q') ∧
    (∀ q', markError q id emsg now = some q' → markError q' id emsg now = some q') := by
  constructor
  · intro q' h
    exact updateRecord_idem q id (fun r => setCompleted r pid now) (fun r => rfl) q' h
  · intro q' h
    exact updateRecord_idem q id (fun r => setError r emsg now) (fun r => rfl) q' h

/-- Witness for C2 at a concrete queue: both terminal transitions, once
performed, are no-ops when repeated. -/
theorem mark_terminal_idempotent_witness :
    (markCompleted [("a", ({ status := "processing" } : IntakeRecord))] "a" "PID" 5 =
      some [("a", setCompleted { status := "processing" } "PID" 5)]) ∧
    (markCompleted [("a", setCompleted { status := "processing" } "PID" 5)] "a" "PID" 5 =
      some [("a", setCompleted { status := "processing" } "PID" 5)]) ∧
    (markError [("b", ({ status := "processing" } : IntakeRecord))] "b" "boom" 5 =
      some [("b", setError { status := "processing" } "boom" 5)]) ∧
    (markError [("b", setError { status := "processing" } "boom" 5)] "b" "boom" 5 =
      some [("b", setError { status := "processing" } "boom" 5)]) := by
  refine ⟨by decide, ?_, by decide, ?_⟩
  · exact (mark_terminal_idempotent [("a", { status := "processing" })] "a" "PID" "x" 5).1
      _ (by decide)
  · exact (mark_terminal_idempotent [("b", { status := "processing" })] "b" "x" "boom" 5).2
      _ (by decide)

/-- C5: a patient-creation invocation whose payload has no date of birth,
with a stored credential present and the originating intake record in the
queue, fails with the validation error message, records the error and sets
the record status to `error`, and publishes nothing to the book-appointment
channel. -/
theorem creator_missing_dob (st : CreatorState) (msg : PatientMsg) (tok : StoredToken)
    (apiResult : Except String String) (now : Nat)
    (hdob : msg.dateOfBirth = none)
    (hid : st.queue.any (fun p => p.1 = msg.id) = true) :
    (createAthenaPatient st msg (some tok) apiResult now).2 =
      Except.error "Missing required fields: firstname, lastname, or DOB" ∧
    (createAthenaPatient st msg (some tok) apiResult now).1.bookMsgs = st.bookMsgs ∧
    (createAthenaPatient st msg (some tok) apiResult now).1.errors = st.errors ++
      [{ type := "patient_creation",
         error := "Missing required fields: firstname, lastname, or DOB" }] ∧
    (∀ p ∈ (createAthenaPatient st msg (some tok) apiResult now).1.queue, p.1 = msg.id →
      p.2.status = "error" ∧
      p.2.error = some "Missing required fields: firstname, lastname, or DOB" ∧
      p.2.errorAt = some now) := by
  have hdob' : formatDateForAthena msg.dateOfBirth = "" := by rw [hdob]; rfl
  have hcond : (msg.firstName = "" || msg.lastName = "" ||
      formatDateForAthena msg.dateOfBirth = "") = true := by
    simp [hdob']
  unfold createAthenaPatient
  rw [if_pos hcond]
  unfold creatorCatch
  simp only []
  have hupd : updateRecord st.queue msg.id
      (fun r => setError r "Missing required fields: firstname, lastname, or DOB" now) =
      some (st.queue.map (fun p => if p.1 = msg.id then
        (p.1, setError p.2 "Missing required fields: firstname, lastname, or DOB" now) else p)) := by
    unfold updateRecord
    rw [if_pos hid]
  unfold markError
  rw [hupd]
  refine ⟨rfl, rfl, rfl, ?_⟩
  intro p hp hpid
  rcases updateRecord_fields st.queue msg.id _ _ hupd p hp hpid with ⟨r, _, hpr⟩
  rw [hpr]
  exact ⟨rfl, rfl, rfl⟩

/-- Witness for C5 at a concrete state and payload. -/
theorem creator_missing_dob_witness :
    ((createAthenaPatient { queue := [("a", { status := "processing" })] }
        { id := "a", firstName := "X", lastName := "Y", email := "e@x" }
        (some {}) (Except.ok "PID") 5).2 =
      Except.error "Missing required fields: firstname, lastname, or DOB") ∧
    ((createAthenaPatient { queue := [("a", { status := "processing" })] }
        { id := "a", firstName := "X", lastName := "Y", email := "e@x" }
        (some {}) (Except.ok "PID") 5).1.bookMsgs = []) ∧
    (∀ p ∈ (createAthenaPatient { queue := [("a", { status := "processing" })] }
        { id := "a", firstName := "X", lastName := "Y", email := "e@x" }
        (some {}) (Except.ok "PID") 5).1.queue, p.1 = "a" →
      p.2.status = "error" ∧
      p.2.error = some "Missing required fields: firstname, lastname, or DOB" ∧
      p.2.errorAt = some 5) := by
  have h := creator_missing_dob { queue := [("a", { status := "processing" })] }
    { id := "a", firstName := "X", lastName := "Y", email := "e@x" }
    {} (Except.ok "PID") 5 rfl (by decide)
  exact ⟨h.1, h.2.1, h.2.2.2⟩

/-- C6: when the upstream token fetch fails, the refresh stage leaves the
stored credential singleton untouched, publishes one notification to the
error-notifications channel, and rethrows the error. -/
theorem refresh_failure_preserves_credential (st : TokenState) (e : String) (now : Nat) :
    (refreshAthenaToken st (Except.error e) now).1.apiToken = st.apiToken ∧
    (refreshAthenaToken st (Except.error e) now).1.errorNotifications =
      st.errorNotifications ++ [{ function := "oauth-manager", error := e }] ∧
    (refreshAthenaToken st (Except.error e) now).2 = Except.error e := by
  exact ⟨rfl, rfl, rfl⟩

/-- C10: in the cleaned-data webhook variant, every invocation creates the
intake document and then trips over the undeclared identifier
`appointmentData`, so the handler always answers 500 with success false,
never publishes the processing trigger, never returns the 200 success
response, and the created document stays in the queue. -/
theorem cleaned_webhook_always_500 (st : CleanState) (req : Part2Req)
    (freshId : String) (now : Nat) :
    (cleanedWebhook st req freshId now).1 = 500 ∧
    (cleanedWebhook st req freshId now).2.1 =
      CleanResp.failure "appointmentData is not defined" ∧
    (cleanedWebhook st req freshId now).2.2.intakeQueue =
      st.intakeQueue ++ [(freshId, cleanPatientData req now)] ∧
    (cleanedWebhook st req freshId now).2.2.processQueueMsgs = st.processQueueMsgs ∧
    (∀ qid found, (cleanedWebhook st req freshId now).2.1 ≠ CleanResp.success qid found) := by
  refine ⟨rfl, rfl, rfl, rfl, ?_⟩
  intro qid found
  intro hcontra
  exact absurd hcontra (by simp [cleanedWebhook, cleanedWebhookTry, jsUndeclared])

/-- C7: one reconciler pass re-queues every `error` record and every
`processing` record whose processing-started stamp is older than the
fifteen-minute cutoff, resetting it to `pending` with the error,
error-timestamp, and processing-started fields cleared, while `pending` and
`completed` records are left unchanged.  (Well-formedness: every
`processing` record carries its stamp, otherwise the JS pass crashes.) -/
theorem reconciler_resets (q : Queue) (now : Nat)
    (hwf : ∀ p ∈ q, p.2.status = "processing" → p.2.processingStarted ≠ none) :
    reprocessFailedIntakes q now = some (q.map (reconcileEntry (now - 15 * 60 * 1000))) ∧
    ∀ p ∈ q,
      (p.2.status = "error" →
        reconcileEntry (now - 15 * 60 * 1000) p = (p.1, resetRecord p.2)) ∧
      (∀ t, p.2.status = "processing" → p.2.processingStarted = some t →
        t < now - 15 * 60 * 1000 →
        reconcileEntry (now - 15 * 60 * 1000) p = (p.1, resetRecord p.2)) ∧
      (p.2.status = "pending" ∨ p.2.status = "completed" →
        reconcileEntry (now - 15 * 60 * 1000) p = p) ∧
      (resetRecord p.2).status = "pending" ∧ (resetRecord p.2).error = none ∧
      (resetRecord p.2).errorAt = none ∧ (resetRecord p.2).processingStarted = none := by
  constructor
  · unfold reprocessFailedIntakes
    rw [if_pos]
    rw [List.all_eq_true]
    intro p hp
    by_cases hs : p.2.status = "processing"
    · have := hwf p hp hs
      simp [hs, Option.isSome_iff_exists]
      cases hps : p.2.processingStarted with
      | none => exact absurd hps this
      | some t => exact ⟨t, rfl⟩
    · simp [hs]
  · intro p hp
    refine ⟨?_, ?_, ?_, rfl, rfl, rfl, rfl⟩
    · intro herr
      unfold reconcileEntry
      rw [if_pos]
      unfold shouldReset
      simp [herr]
    · intro t hproc hps hlt
      unfold reconcileEntry
      rw [if_pos]
      unfold shouldReset
      simp [hproc, hps, hlt]
    · intro hpc
      unfold reconcileEntry
      rw [if_neg]
      unfold shouldReset
      rcases hpc with hpend | hcomp
      · simp [hpend]
      · simp [hcomp]

/-- Witness for C7 at a concrete queue holding all four statuses. -/
theorem reconciler_resets_witness :
    reprocessFailedIntakes
      [("a", { status := "error", error := some "x", errorAt := some 3 }),
       ("b", { status := "processing", processingStarted := some 1 }),
       ("c", { status := "processing", processingStarted := some 999999999 }),
       ("d", { status := "completed" })] 1000000000 =
      some ([("a", { status := "error", error := some "x", errorAt := some 3 }),
             ("b", { status := "processing", processingStarted := some 1 }),
             ("c", { status := "processing", processingStarted := some 999999999 }),
             ("d", { status := "completed" })].map
            (reconcileEntry (1000000000 - 15 * 60 * 1000))) := by
  exact (reconciler_resets _ 1000000000 (by decide)).1

theorem pendingBatch_subset (q : Queue) : pendingBatch q ⊆ q :=
  ((List.take_sublist _ _).trans (List.filter_sublist _)).subset

theorem pendingBatch_pending (q : Queue) : ∀ p ∈ pendingBatch q, p.2.status = "pending" := by
  intro p hp
  have hf := List.take_subset 10 _ hp
  have := List.mem_filter.mp hf
  simpa using this.2

theorem pendingBatch_any_iff (q : Queue) (hnd : (q.map Prod.fst).Nodup)
    {p : String × IntakeRecord} (hp : p ∈ q) :
    (pendingBatch q).any (fun d => d.1 = p.1) = true ↔ p ∈ pendingBatch q := by
  constructor
  · intro h
    rcases List.any_eq_true.mp h with ⟨d, hd, hdp⟩
    have hdq : d ∈ q := pendingBatch_subset q hd
    have : d = p :=
      List.inj_on_of_nodup_map hnd hdq hp (by simpa using hdp)
    rw [← this]
    exact hd
  · intro h
    exact List.any_eq_true.mpr ⟨p, h, by simp⟩

/-- C1: one queue-claim invocation transitions exactly the claimed snapshot
(the first at most ten `pending` records) to `processing`, stamping each
with the processing-started time, publishes exactly those records to the
patient-creation channel, and leaves every other record — in particular
every record whose status is not `pending` — unchanged. -/
theorem process_intake_queue_claims (q : Queue) (now : Nat)
    (hnd : (q.map Prod.fst).Nodup) :
    (processIntakeQueue q now).2 = (pendingBatch q).map (fun d => msgOfRecord d.1 d.2) ∧
    (pendingBatch q).length ≤ 10 ∧
    (∀ p ∈ pendingBatch q, p.2.status = "pending") ∧
    (processIntakeQueue q now).1 =
      q.map (fun p => if p ∈ pendingBatch q then (p.1, claimRecord p.2 now) else p) ∧
    (∀ p ∈ pendingBatch q, (claimRecord p.2 now).status = "processing" ∧
      (claimRecord p.2 now).processingStarted = some now) ∧
    (∀ p ∈ q, p.2.status ≠ "pending" → p ∈ (processIntakeQueue q now).1) := by
  have hmap : (processIntakeQueue q now).1 =
      q.map (fun p => if p ∈ pendingBatch q then (p.1, claimRecord p.2 now) else p) := by
    unfold processIntakeQueue
    simp only []
    apply List.map_congr_left
    intro p hp
    by_cases hmem : p ∈ pendingBatch q
    · rw [if_pos ((pendingBatch_any_iff q hnd hp).mpr hmem), if_pos hmem]
    · rw [if_neg (fun hc => hmem ((pendingBatch_any_iff q hnd hp).mp hc)), if_neg hmem]
  refine ⟨rfl, List.length_take_le 10 _, pendingBatch_pending q, hmap, ?_, ?_⟩
  · intro p _
    exact ⟨rfl, rfl⟩
  · intro p hp hnp
    have hmem : p ∉ pendingBatch q := fun hc => hnp (pendingBatch_pending q p hc)
    rw [hmap]
    exact List.mem_map.mpr ⟨p, hp, by rw [if_neg hmem]⟩

def c1Queue : Queue :=
  [("a", { status := "pending", firstName := "X" }),
   ("b", { status := "completed" }),
   ("c", { status := "pending" }),
   ("d", { status := "error" })]

/-- Witness for C1 at a concrete queue. -/
theorem process_intake_queue_claims_witness :
    (processIntakeQueue c1Queue 77).2 =
      (pendingBatch c1Queue).map (fun d => msgOfRecord d.1 d.2) ∧
    (pendingBatch c1Queue).length ≤ 10 ∧
    (∀ p ∈ pendingBatch c1Queue, p.2.status = "pending") ∧
    (processIntakeQueue c1Queue 77).1 =
      c1Queue.map (fun p => if p ∈ pendingBatch c1Queue then (p.1, claimRecord p.2 77) else p) ∧
    (∀ p ∈ pendingBatch c1Queue, (claimRecord p.2 77).status = "processing" ∧
      (claimRecord p.2 77).processingStarted = some 77) ∧
    (∀ p ∈ c1Queue, p.2.status ≠ "pending" → p ∈ (processIntakeQueue c1Queue 77).1) :=
  process_intake_queue_claims c1Queue 77 (by decide)

theorem webErrors_eq_nil_iff (pd : IntakeRecord) :
    webErrors pd = [] ↔
      (pd.firstName ≠ "" ∧ pd.lastName ≠ "" ∧ pd.dateOfBirth ≠ none ∧
       ¬(pd.email = "" ∧ pd.phone = "" ∧ pd.zip = "")) := by
  unfold webErrors
  split_ifs <;> simp_all

/-- C4: a webhook POST whose status is neither `completed` nor `success`,
or whose (derived) patient data misses a first name, a last name, a
parseable date of birth, or every contact field (email, cleaned phone, and
zip all empty), is answered 200 with a processed-false body carrying a
reason or the errors list, and no document is added to the
patient-intake-queue collection. -/
theorem webhook_rejects (st : WebhookState) (req : WebhookReq) (freshId : String)
    (now hour : Nat)
    (h : ¬(req.status = some "completed" ∨ req.status = some "success") ∨
         webFirstName req.vars = "" ∨ webLastName req.vars = "" ∨
         parseDate (webDobInput req.vars) = none ∨
         (webEmail req.vars = "" ∧ webPhone req.vars req.phone_number = "" ∧
          webZip req.vars = "")) :
    (blandWebhookMain st req freshId now hour).1 = 200 ∧
    (blandWebhookMain st req freshId now hour).2.2.intakeQueue = st.intakeQueue ∧
    ((blandWebhookMain st req freshId now hour).2.1 =
        WebhookResp.notProcessed "Call not completed" ∨
     ∃ errs, errs ≠ [] ∧ (blandWebhookMain st req freshId now hour).2.1 =
        WebhookResp.notProcessedErrors errs) := by
  by_cases hstat : ¬(req.status = some "completed" ∨ req.status = some "success")
  · unfold blandWebhookMain
    rw [if_pos hstat]
    exact ⟨rfl, rfl, Or.inl rfl⟩
  · have herrs : webErrors (webPatientData req now) ≠ [] := by
      intro hnil
      rcases (webErrors_eq_nil_iff _).mp hnil with ⟨h1, h2, h3, h4⟩
      rcases h with hbad | hfn | hln | hdob | hcontact
      · exact hstat hbad
      · exact h1 hfn
      · exact h2 hln
      · exact h3 hdob
      · exact h4 hcontact
    unfold blandWebhookMain
    rw [if_neg hstat]
    simp only []
    rw [if_pos herrs]
    exact ⟨rfl, rfl, Or.inr ⟨_, herrs, rfl⟩⟩

/-- Witness for C4: a `no-answer` call is acknowledged but not processed
and creates no intake document. -/
theorem webhook_rejects_witness :
    (blandWebhookMain {} { call_id := "c2", status := some "no-answer" } "doc2" 1000 9).1
      = 200 ∧
    (blandWebhookMain {} { call_id := "c2", status := some "no-answer" } "doc2" 1000 9).2.2.intakeQueue
      = WebhookState.intakeQueue {} ∧
    ((blandWebhookMain {} { call_id := "c2", status := some "no-answer" } "doc2" 1000 9).2.1 =
        WebhookResp.notProcessed "Call not completed" ∨
     ∃ errs, errs ≠ [] ∧
       (blandWebhookMain {} { call_id := "c2", status := some "no-answer" } "doc2" 1000 9).2.1 =
         WebhookResp.notProcessedErrors errs) :=
  webhook_rejects {} { call_id := "c2", status := some "no-answer" } "doc2" 1000 9
    (Or.inl (by decide))

/-- The 10-digit form of a digit string: an 11-digit string with a leading
`1` is reduced to its trailing ten digits, anything else is taken as is. -/
def tenDigitForm (ds : List Char) : List Char :=
  if ds.length = 11 && ds.headD ' ' = '1' then ds.tail else ds

/-- The NANP digit-position rules: a 10-digit form whose first and fourth
digits are each in `2`-`9`. -/
def nanpRules (ds : List Char) : Bool :=
  ds.length = 10 && nanpDigit (ds.getD 0 ' ') && nanpDigit (ds.getD 3 ' ')

/-- C8 counterexample: the input `11234567890` has an 11-digit digit string
beginning with `1`, but the phone cleaner does not normalize it to its
trailing ten digits `1234567890` — those fail the NANP digit-position check
(their first digit is `1`), so the cleaner returns the empty string. -/
theorem cleanPhone_eleven_digit_counterexample :
    ("11234567890".toList.filter isDigitChar).length = 11 ∧
    ("11234567890".toList.filter isDigitChar).headD ' ' = '1' ∧
    ("11234567890".toList.filter isDigitChar).tail = "1234567890".toList ∧
    cleanPhone "11234567890" ≠ "1234567890" := by
  decide

/-- C8 amended: the webhook parse and the creator clean agree; an input
whose digits form an 11-digit string beginning with `1` is reduced to its
trailing ten digits, which are returned exactly when they satisfy the NANP
digit-position rules (and otherwise yield the empty string); and any input
whose 10-digit form fails the NANP digit-position rules cleans to the empty
string. -/
theorem cleanPhone_nanp (p : String) :
    (parsePhoneNumber (some p) = cleanPhone p) ∧
    ((p.toList.filter isDigitChar).length = 11 →
      (p.toList.filter isDigitChar).headD ' ' = '1' →
      cleanPhone p = (if nanpRules ((p.toList.filter isDigitChar).tail) = true
                      then String.mk ((p.toList.filter isDigitChar).tail) else "")) ∧
    (nanpRules (tenDigitForm (p.toList.filter isDigitChar)) = false →
      cleanPhone p = "") := by
  by_cases hp : p = ""
  · subst hp
    refine ⟨rfl, ?_, ?_⟩
    · intro hlen
      exact absurd hlen (by decide)
    · intro hn
      rfl
  · have hform : cleanPhone p =
        (if nanpRules (tenDigitForm (p.toList.filter isDigitChar)) = true
         then String.mk (tenDigitForm (p.toList.filter isDigitChar)) else "") := by
      unfold cleanPhone tenDigitForm nanpRules
      rw [if_neg hp]
    refine ⟨rfl, ?_, ?_⟩
    · intro hlen hhead
      rw [hform]
      have hten : tenDigitForm (p.toList.filter isDigitChar) =
          (p.toList.filter isDigitChar).tail := by
        unfold tenDigitForm
        rw [if_pos (by rw [Bool.and_eq_true]
                       exact ⟨decide_eq_true hlen, decide_eq_true hhead⟩)]
      rw [hten]
    · intro hn
      rw [hform, if_neg (ne_true_of_eq_false hn)]

/-- Witness for C8: an 11-digit NANP-valid input keeps its trailing ten
digits, a short input cleans to empty. -/
theorem cleanPhone_nanp_witness :
    cleanPhone "+1 (702) 555-1234" = "7025551234" ∧ cleanPhone "12 34" = "" := by
  constructor
  · have h := (cleanPhone_nanp "+1 (702) 555-1234").2.1 (by decide) (by decide)
    rw [h, if_pos (by decide)]
    decide
  · exact (cleanPhone_nanp "12 34").2.2 (by decide)

/-! ## Status enum invariants (C3) -/

/-- The status enum of the specification. -/
def statusOk (r : IntakeRecord) : Prop :=
  r.status = "pending" ∨ r.status = "processing" ∨ r.status = "completed" ∨ r.status = "error"

instance (r : IntakeRecord) : Decidable (statusOk r) := by
  unfold statusOk
  infer_instance

def queueStatusOk (q : Queue) : Prop := ∀ p ∈ q, statusOk p.2

instance (q : Queue) : Decidable (queueStatusOk q) := by
  unfold queueStatusOk
  infer_instance

theorem setDoc_queueStatusOk {q : Queue} {id : String} {v : IntakeRecord}
    (hq : queueStatusOk q) (hv : statusOk v) : queueStatusOk (setDoc q id v) := by
  unfold setDoc
  split
  · intro p hp
    rcases List.mem_map.mp hp with ⟨orig, horig, hfo⟩
    by_cases ho : orig.1 = id
    · rw [if_pos ho] at hfo
      rw [← hfo]
      exact hv
    · rw [if_neg ho] at hfo
      rw [← hfo]
      exact hq orig horig
  · intro p hp
    rcases List.mem_append.mp hp with h1 | h2
    · exact hq p h1
    · simp only [List.mem_singleton] at h2
      rw [h2]
      exact hv

theorem updateRecord_queueStatusOk {q q' : Queue} {id : String}
    {f : IntakeRecord → IntakeRecord} (h : updateRecord q id f = some q')
    (hf : ∀ r, statusOk (f r)) (hq : queueStatusOk q) : queueStatusOk q' := by
  unfold updateRecord at h
  by_cases hany : q.any (fun p => p.1 = id) = true
  · rw [if_pos hany] at h
    injection h with h
    subst h
    intro p hp
    rcases List.mem_map.mp hp with ⟨orig, horig, hfo⟩
    by_cases ho : orig.1 = id
    · rw [if_pos ho] at hfo
      rw [← hfo]
      exact hf orig.2
    · rw [if_neg ho] at hfo
      rw [← hfo]
      exact hq orig horig
  · rw [if_neg hany] at h
    exact absurd h (by simp)

theorem creatorCatch_queueStatusOk (st : CreatorState) (msg : PatientMsg)
    (emsg : String) (now : Nat) (hq : queueStatusOk st.queue) :
    queueStatusOk (creatorCatch st msg emsg now).1.queue := by
  unfold creatorCatch
  simp only []
  cases hupd : markError st.queue msg.id emsg now with
  | none => exact hq
  | some q2 =>
    exact updateRecord_queueStatusOk hupd (fun r => Or.inr (Or.inr (Or.inr rfl))) hq

theorem createAthenaPatient_queueStatusOk (st : CreatorState) (msg : PatientMsg)
    (tok : Option StoredToken) (apiResult : Except String String) (now : Nat)
    (hq : queueStatusOk st.queue) :
    queueStatusOk (createAthenaPatient st msg tok apiResult now).1.queue := by
  unfold createAthenaPatient
  cases tok with
  | none => exact creatorCatch_queueStatusOk st msg _ now hq
  | some td =>
    simp only []
    split
    · exact creatorCatch_queueStatusOk st msg _ now hq
    split
    · exact creatorCatch_queueStatusOk st msg _ now hq
    cases apiResult with
    | error e => exact creatorCatch_queueStatusOk st msg e now hq
    | ok pid =>
      simp only []
      split
      · exact creatorCatch_queueStatusOk _ msg _ now hq
      · next q2 heq =>
        have hq2 : queueStatusOk q2 :=
          updateRecord_queueStatusOk heq (fun r => Or.inr (Or.inr (Or.inl rfl))) hq
        split <;> exact hq2

def c3Req : Part2Req :=
  { call_id := "call9",
    vars := { first_name := some "T", last_name := some "P",
              date_of_birth := some "1990-01-15", email := some "e@x" } }

/-- C3 counterexample: via the direct-publish webhook path a record moves
from `pending` straight to `completed` without ever holding `processing`.
The webhook stores the record with status `pending` and publishes it to the
patient-creation channel; the patient-creation stage run on that very
message (with a stored credential and a successful remote call) transitions
the same record directly to `completed` — the two states the record ever
holds are `pending` and then `completed`. -/
theorem pending_skips_processing_counterexample :
    ((part2Webhook {} c3Req 42).2.2.intakeQueue.map (fun p => (p.1, p.2.status)) =
      [("call9_42", "pending")]) ∧
    ((part2Webhook {} c3Req 42).2.2.createPatientMsgs = [part2PatientData c3Req 42]) ∧
    ((createAthenaPatient { queue := (part2Webhook {} c3Req 42).2.2.intakeQueue }
        (part2PatientData c3Req 42) (some {}) (Except.ok "PID") 99).1.queue.map
        (fun p => (p.1, p.2.status)) = [("call9_42", "completed")]) := by
  decide

/-- C3 amended: every status any embedded operation ever stores is one of
`pending`, `processing`, `completed`, `error`; and the records claimed by
the queue-claim dispatcher hold `processing` in the updated queue, so the
dispatcher-mediated path does pass through `processing` — but the
direct-publish webhook path can take a record from `pending` to `completed`
without it ever holding `processing`. -/
theorem status_enum_and_dispatcher_path (q : Queue) (now : Nat) :
    (queueStatusOk q → queueStatusOk (processIntakeQueue q now).1) ∧
    (∀ st req freshId hour, queueStatusOk st.intakeQueue →
      queueStatusOk (blandWebhookMain st req freshId now hour).2.2.intakeQueue) ∧
    (∀ st req, queueStatusOk st.intakeQueue →
      queueStatusOk (part2Webhook st req now).2.2.intakeQueue) ∧
    (∀ st req freshId, queueStatusOk st.intakeQueue →
      queueStatusOk (cleanedWebhook st req freshId now).2.2.intakeQueue) ∧
    (∀ st msg tok apiResult, queueStatusOk st.queue →
      queueStatusOk (createAthenaPatient st msg tok apiResult now).1.queue) ∧
    (∀ q', reprocessFailedIntakes q now = some q' → queueStatusOk q → queueStatusOk q') ∧
    (∀ p ∈ pendingBatch q, ∃ p' ∈ (processIntakeQueue q now).1,
      p'.1 = p.1 ∧ p'.2.status = "processing") := by
  refine ⟨?_, ?_, ?_, ?_, ?_, ?_, ?_⟩
  · intro hq p hp
    rcases List.mem_map.mp hp with ⟨orig, horig, hfo⟩
    by_cases ho : (pendingBatch q).any (fun d => d.1 = orig.1) = true
    · rw [if_pos ho] at hfo
      rw [← hfo]
      exact Or.inr (Or.inl rfl)
    · rw [if_neg ho] at hfo
      rw [← hfo]
      exact hq orig horig
  · intro st req freshId hour hq
    unfold blandWebhookMain
    by_cases hstat : ¬(req.status = some "completed" ∨ req.status = some "success")
    · rw [if_pos hstat]
      exact hq
    · rw [if_neg hstat]
      simp only []
      by_cases herr : webErrors (webPatientData req now) ≠ []
      · rw [if_pos herr]
        exact hq
      · rw [if_neg herr]
        simp only []
        by_cases hhour : 8 ≤ hour ∧ hour ≤ 18
        · rw [if_pos hhour]
          intro p hp
          rcases List.mem_append.mp hp with h1 | h2
          · exact hq p h1
          · simp only [List.mem_singleton] at h2
            rw [h2]
            exact Or.inl rfl
        · rw [if_neg hhour]
          intro p hp
          rcases List.mem_append.mp hp with h1 | h2
          · exact hq p h1
          · simp only [List.mem_singleton] at h2
            rw [h2]
            exact Or.inl rfl
  · intro st req hq
    unfold part2Webhook
    split
    · exact hq
    · exact setDoc_queueStatusOk hq (Or.inl rfl)
  · intro st req freshId hq
    unfold cleanedWebhook cleanedWebhookTry
    simp only [jsUndeclared]
    intro p hp
    rcases List.mem_append.mp hp with h1 | h2
    · exact hq p h1
    · simp only [List.mem_singleton] at h2
      rw [h2]
      exact Or.inl rfl
  · intro st msg tok apiResult hq
    exact createAthenaPatient_queueStatusOk st msg tok apiResult now hq
  · intro q' hq' hq
    unfold reprocessFailedIntakes at hq'
    simp only [] at hq'
    split at hq'
    · injection hq' with hq'
      subst hq'
      intro p hp
      rcases List.mem_map.mp hp with ⟨orig, horig, hfo⟩
      unfold reconcileEntry at hfo
      split at hfo
      · rw [← hfo]
        exact Or.inl rfl
      · rw [← hfo]
        exact hq orig horig
    · exact absurd hq' (by simp)
  · intro p hp
    have hpq : p ∈ q := pendingBatch_subset q hp
    refine ⟨(p.1, claimRecord p.2 now), ?_, rfl, rfl⟩
    unfold processIntakeQueue
    simp only []
    have hany : (pendingBatch q).any (fun d => d.1 = p.1) = true :=
      List.any_eq_true.mpr ⟨p, hp, by simp⟩
    exact List.mem_map.mpr ⟨p, hpq, by rw [if_pos hany]⟩

def c3Queue : Queue :=
  [("a", { status := "pending" }), ("b", { status := "error" })]

/-- Witness for C3 (amended) at a concrete queue and requests. -/
theorem status_enum_and_dispatcher_path_witness :
    queueStatusOk (processIntakeQueue c3Queue 7).1 ∧
    queueStatusOk (part2Webhook { intakeQueue := c3Queue } c3Req 7).2.2.intakeQueue ∧
    (∀ p ∈ pendingBatch c3Queue, ∃ p' ∈ (processIntakeQueue c3Queue 7).1,
      p'.1 = p.1 ∧ p'.2.status = "processing") := by
  refine ⟨?_, ?_, ?_⟩
  · exact (status_enum_and_dispatcher_path c3Queue 7).1 (by decide)
  · exact (status_enum_and_dispatcher_path c3Queue 7).2.2.1 { intakeQueue := c3Queue }
      c3Req (by decide)
  · exact (status_enum_and_dispatcher_path c3Queue 7).2.2.2.2.2.2

/-! ## Lemmas for the date round-trip (C9) -/

theorem char_toNat_bounds {c : Char} (h : isDigitChar c = true) :
    48 ≤ c.toNat ∧ c.toNat ≤ 57 := by
  simp only [isDigitChar, Bool.and_eq_true, decide_eq_true_eq] at h
  exact ⟨h.1, h.2⟩

theorem digit_ne {c c' : Char} (h : isDigitChar c = true) (h' : c'.toNat < 48 ∨ 57 < c'.toNat) :
    c ≠ c' := by
  rcases char_toNat_bounds h with ⟨h1, h2⟩
  intro he
  subst he
  omega

theorem digit_not_dash {c : Char} (h : isDigitChar c = true) : c ≠ '-' :=
  digit_ne h (Or.inl (by decide))

theorem digit_not_slash {c : Char} (h : isDigitChar c = true) : c ≠ '/' :=
  digit_ne h (Or.inl (by decide))

theorem digit_not_ws {c : Char} (h : isDigitChar c = true) : isWsChar c = false := by
  rcases char_toNat_bounds h with ⟨h1, h2⟩
  simp only [isWsChar, Bool.or_eq_false_iff, decide_eq_false_iff_not]
  refine ⟨⟨⟨?_, ?_⟩, ?_⟩, ?_⟩ <;>
    (intro he; rw [he] at h1; revert h1; decide)

theorem natDigits_head_digit (n : Nat) :
    ∃ c cs', natDigits n = c :: cs' ∧ isDigitChar c = true := by
  induction n using Nat.strong_induction_on with
  | _ n ih =>
    rw [natDigits_unfold]
    by_cases h : n < 10
    · rw [if_pos h]
      exact ⟨digitChar n, [], rfl, isDigitChar_digitChar h⟩
    · rw [if_neg h]
      rcases ih (n / 10) (Nat.div_lt_self (by omega) (by omega)) with ⟨c, cs', hc, hd⟩
      exact ⟨c, cs' ++ [digitChar (n % 10)], by rw [hc]; rfl, hd⟩

theorem natDigits_last_digit (n : Nat) :
    ∃ xs c, natDigits n = xs ++ [c] ∧ isDigitChar c = true := by
  rw [natDigits_unfold]
  by_cases h : n < 10
  · rw [if_pos h]
    exact ⟨[], digitChar n, rfl, isDigitChar_digitChar h⟩
  · rw [if_neg h]
    exact ⟨natDigits (n / 10), digitChar (n % 10), rfl,
      isDigitChar_digitChar (Nat.mod_lt _ (by omega))⟩

/-- All characters of a zero-padded numeral are digits. -/
theorem padTo_all_digits (k n : Nat) : ∀ c ∈ padTo k n, isDigitChar c = true := by
  intro c hc
  rcases List.mem_append.mp hc with h1 | h2
  · rw [List.eq_of_mem_replicate h1]
    decide
  · exact natDigits_all_digits n c h2

theorem padTo_head_digit (k n : Nat) :
    ∃ c cs', padTo k n = c :: cs' ∧ isDigitChar c = true := by
  unfold padTo
  cases hk : k - (natDigits n).length with
  | zero =>
    rcases natDigits_head_digit n with ⟨c, cs', hc, hd⟩
    exact ⟨c, cs', by rw [hc]; rfl, hd⟩
  | succ j =>
    exact ⟨'0', List.replicate j '0' ++ natDigits n, rfl, by decide⟩

theorem padTo_last_digit (k n : Nat) :
    ∃ xs c, padTo k n = xs ++ [c] ∧ isDigitChar c = true := by
  unfold padTo
  rcases natDigits_last_digit n with ⟨xs, c, hc, hd⟩
  exact ⟨List.replicate (k - (natDigits n).length) '0' ++ xs, c,
    by rw [hc, List.append_assoc], hd⟩

theorem padTo_eq_self {k n : Nat} (h : (natDigits n).length = k) : padTo k n = natDigits n := by
  unfold padTo
  rw [h]
  simp

theorem padTo_two_length {m : Nat} (h : m ≤ 99) : (padTo 2 m).length = 2 := by
  unfold padTo
  rw [List.length_append, List.length_replicate]
  by_cases hm : m < 10
  · rw [natDigits_length_one hm]
  · rw [natDigits_length_two (by omega) h]

theorem parseNat_replicate_zero (j : Nat) (ds : List Char) :
    parseNat (List.replicate j '0' ++ ds) = parseNat ds := by
  induction j with
  | zero => rfl
  | succ i ih =>
    rw [List.replicate_succ]
    show parseNat ('0' :: (List.replicate i '0' ++ ds)) = parseNat ds
    unfold parseNat parseNatFrom
    simp only [List.foldl_cons]
    have : (0 : Nat) * 10 + digitVal '0' = 0 := by decide
    rw [this]
    exact ih

theorem parseNat_padTo (k n : Nat) : parseNat (padTo k n) = n := by
  unfold padTo
  rw [parseNat_replicate_zero]
  exact parseNat_natDigits n

/-- `jsTrim` is the identity on a list whose first and last characters are
not whitespace. -/
theorem jsTrim_eq_self_of_ends {cs : List Char}
    (hh : isWsChar (cs.headD '0') = false) (hl : isWsChar (cs.getLastD '0') = false) :
    jsTrim cs = cs := by
  cases cs with
  | nil => rfl
  | cons x rest =>
    unfold jsTrim
    have hx : isWsChar x = false := hh
    rw [List.dropWhile_cons, if_neg (by simp [hx])]
    cases hr : (x :: rest).reverse with
    | nil => exact absurd hr (by simp)
    | cons y t =>
      have hy : (x :: rest).getLastD '0' = y := by
        have h1 : (x :: rest).reverse.head? = some y := by rw [hr]; rfl
        rw [List.head?_reverse] at h1
        rw [List.getLastD_eq_getLast?, h1]
        rfl
      have hwy : isWsChar y = false := by rw [← hy]; exact hl
      have hdrop : List.dropWhile isWsChar (y :: t) = y :: t := by
        rw [List.dropWhile_cons, if_neg (by simp [hwy])]
      rw [hdrop, ← hr, List.reverse_reverse]

theorem getLastD_concat_form {cs xs : List Char} {c : Char} (h : cs = xs ++ [c]) :
    cs.getLastD '0' = c := by
  subst h
  simp

theorem strmk_toList (cs : List Char) : (String.mk cs).toList = cs := rfl

theorem strmk_ne_empty {cs : List Char} (h : cs ≠ []) : String.mk cs ≠ "" := by
  intro he
  apply h
  have : (String.mk cs).data = ("" : String).data := by rw [he]
  simpa using this

theorem monthLen_le_31 (y m : Nat) : monthLen y m ≤ 31 := by
  unfold monthLen
  split_ifs <;> omega

theorem validYmd_bounds {y m d : Nat} (h : validYmd y m d = true) :
    1 ≤ m ∧ m ≤ 12 ∧ 1 ≤ d ∧ d ≤ 31 := by
  unfold validYmd at h
  simp only [Bool.and_eq_true, decide_eq_true_eq] at h
  have := monthLen_le_31 y m
  omega

theorem natDigits_length_one_or_two {n : Nat} (h : n ≤ 99) :
    (natDigits n).length = 1 ∨ (natDigits n).length = 2 := by
  by_cases h10 : n < 10
  · exact Or.inl (natDigits_length_one h10)
  · exact Or.inr (natDigits_length_two (by omega) h)

theorem all_digits_bool (l : List Char) (h : ∀ c ∈ l, isDigitChar c = true) :
    l.all isDigitChar = true :=
  List.all_eq_true.mpr h

/-- The ISO renderer round-trips through `isoParse`. -/
theorem isoParse_render (y m d : Nat) (hy1 : 1000 ≤ y) (hy2 : y ≤ 9999)
    (hv : validYmd y m d = true) :
    isoParse (natDigits y ++ '-' :: (padTo 2 m ++ '-' :: padTo 2 d)) = some (y, m, d) := by
  rcases validYmd_bounds hv with ⟨hm1, hm2, hd1, hd2⟩
  unfold isoParse
  rw [splitOnChar_append _ (fun c hc => digit_not_dash (natDigits_all_digits y c hc)),
    splitOnChar_append _ (fun c hc => digit_not_dash (padTo_all_digits 2 m c hc)),
    splitOnChar_no_sep (fun c hc => digit_not_dash (padTo_all_digits 2 d c hc))]
  unfold isoParseParts
  simp only []
  rw [if_pos (by
    simp only [Bool.and_eq_true, decide_eq_true_eq]
    refine ⟨⟨⟨⟨⟨?_, ?_⟩, ?_⟩, ?_⟩, ?_⟩, ?_⟩
    · exact natDigits_length_four hy1 hy2
    · exact all_digits_bool _ (natDigits_all_digits y)
    · exact padTo_two_length (by omega)
    · exact all_digits_bool _ (padTo_all_digits 2 m)
    · exact padTo_two_length (by omega)
    · exact all_digits_bool _ (padTo_all_digits 2 d))]
  rw [parseNat_natDigits, parseNat_padTo, parseNat_padTo, if_pos hv]

/-- The US renderer round-trips through `usParse`. -/
theorem usParse_render (y m d : Nat) (hy1 : 1000 ≤ y) (hy2 : y ≤ 9999)
    (hv : validYmd y m d = true) :
    usParse (natDigits m ++ '/' :: (natDigits d ++ '/' :: natDigits y)) = some (y, m, d) := by
  rcases validYmd_bounds hv with ⟨hm1, hm2, hd1, hd2⟩
  unfold usParse
  rw [splitOnChar_append _ (fun c hc => digit_not_slash (natDigits_all_digits m c hc)),
    splitOnChar_append _ (fun c hc => digit_not_slash (natDigits_all_digits d c hc)),
    splitOnChar_no_sep (fun c hc => digit_not_slash (natDigits_all_digits y c hc))]
  unfold usParseParts
  simp only []
  rw [if_pos (by
    simp only [Bool.and_eq_true, Bool.or_eq_true, decide_eq_true_eq]
    refine ⟨⟨⟨⟨⟨?_, ?_⟩, ?_⟩, ?_⟩, ?_⟩, ?_⟩
    · exact natDigits_length_one_or_two (by omega)
    · exact all_digits_bool _ (natDigits_all_digits m)
    · exact natDigits_length_one_or_two (by omega)
    · exact all_digits_bool _ (natDigits_all_digits d)
    · exact natDigits_length_four hy1 hy2
    · exact all_digits_bool _ (natDigits_all_digits y))]
  rw [parseNat_natDigits, parseNat_natDigits, parseNat_natDigits, if_pos hv]

theorem isoParse_none_no_dash {cs : List Char} (h : ∀ c ∈ cs, c ≠ '-') :
    isoParse cs = none := by
  unfold isoParse
  rw [splitOnChar_no_sep h]
  rfl

theorem usParse_none_no_slash {cs : List Char} (h : ∀ c ∈ cs, c ≠ '/') :
    usParse cs = none := by
  unfold usParse
  rw [splitOnChar_no_sep h]
  rfl

theorem usRender_no_dash (y m d : Nat) :
    ∀ c ∈ natDigits m ++ '/' :: (natDigits d ++ '/' :: natDigits y), c ≠ '-' := by
  intro c hc
  rcases List.mem_append.mp hc with h1 | h2
  · exact digit_not_dash (natDigits_all_digits m c h1)
  · rcases List.mem_cons.mp h2 with h3 | h4
    · rw [h3]; decide
    · rcases List.mem_append.mp h4 with h5 | h6
      · exact digit_not_dash (natDigits_all_digits d c h5)
      · rcases List.mem_cons.mp h6 with h7 | h8
        · rw [h7]; decide
        · exact digit_not_dash (natDigits_all_digits y c h8)

theorem startsList_take (needle pre rest : List Char)
    (h : startsList needle (pre ++ rest) = true) :
    startsList (needle.take pre.length) pre = true := by
  induction needle generalizing pre with
  | nil => cases pre <;> rfl
  | cons a as ih =>
    cases pre with
    | nil => rfl
    | cons b bs =>
      simp only [List.cons_append, startsList, Bool.and_eq_true] at h
      simp only [List.length_cons, List.take_succ_cons, startsList, Bool.and_eq_true]
      exact ⟨h.1, ih bs h.2⟩

theorem startsList_false_of_take (needle pre rest : List Char)
    (h : startsList (needle.take pre.length) pre = false) :
    startsList needle (pre ++ rest) = false := by
  cases hc : startsList needle (pre ++ rest)
  · rfl
  · rw [startsList_take needle pre rest hc] at h
    exact absurd h (by simp)

theorem map_lowerChar_digits {l : List Char} (h : ∀ c ∈ l, isDigitChar c = true) :
    l.map lowerChar = l := by
  induction l with
  | nil => rfl
  | cons a t ih =>
    rw [List.map_cons, lowerChar_digit (h a (List.mem_cons_self a t)),
      ih (fun c hc => h c (List.mem_cons_of_mem a hc))]

theorem monthRender_lower (cap low : List Char) (y d : Nat)
    (hcl : cap.map lowerChar = low) :
    (cap ++ ' ' :: (natDigits d ++ ',' :: ' ' :: natDigits y)).map lowerChar
      = low ++ ' ' :: (natDigits d ++ ',' :: ' ' :: natDigits y) := by
  rw [List.map_append, hcl, List.map_cons, List.map_append,
    map_lowerChar_digits (natDigits_all_digits d), List.map_cons, List.map_cons,
    map_lowerChar_digits (natDigits_all_digits y)]
  rfl

theorem firstSome_none (b : Option (Nat × Nat × Nat)) : firstSome none b = b := rfl

theorem firstSome_some (r : Nat × Nat × Nat) (b : Option (Nat × Nat × Nat)) :
    firstSome (some r) b = some r := rfl

theorem tryMonthExact_no (lower : List Char) (i : Nat) (name : List Char)
    (h : startsList (name ++ [' ']) lower = false) :
    tryMonthExact lower i name = none := by
  unfold tryMonthExact
  rw [if_neg (by simp [h])]

/-- `tryMonthExact` succeeds on its own rendered month form. -/
theorem tryMonthExact_render (name : List Char) (i y d : Nat)
    (_hd1 : 1 ≤ d) (hd2 : d ≤ 99) (hy1 : 1000 ≤ y) (hy2 : y ≤ 9999)
    (hv : validYmd y (i + 1) d = true) :
    tryMonthExact (name ++ ' ' :: (natDigits d ++ ',' :: ' ' :: natDigits y)) i name
      = some (y, i + 1, d) := by
  have hassoc : name ++ ' ' :: (natDigits d ++ ',' :: ' ' :: natDigits y)
      = (name ++ [' ']) ++ (natDigits d ++ ',' :: ' ' :: natDigits y) := by simp
  unfold tryMonthExact
  rw [if_pos (by rw [hassoc]; rw [startsList_append])]
  simp only []
  have hdrop : (name ++ ' ' :: (natDigits d ++ ',' :: ' ' :: natDigits y)).drop
      (name.length + 1) = natDigits d ++ ',' :: ' ' :: natDigits y := by
    rw [hassoc, show name.length + 1 = (name ++ [' ']).length by simp, List.drop_left]
  rw [hdrop,
    takeWhile_append_not ',' _ (natDigits_all_digits d) (by decide),
    dropWhile_append_not ',' _ (natDigits_all_digits d) (by decide)]
  rw [if_pos (by
    simp only [Bool.and_eq_true, decide_eq_true_eq]
    rcases natDigits_length_one_or_two hd2 with h1 | h2
    · rw [h1]; omega
    · rw [h2]; omega)]
  simp only []
  rw [if_pos (by
    simp only [Bool.and_eq_true, decide_eq_true_eq]
    exact ⟨natDigits_length_four hy1 hy2, all_digits_bool _ (natDigits_all_digits y)⟩)]
  rw [parseNat_natDigits, parseNat_natDigits, if_pos hv]

/-- The capitalized month name of a month number (the month-name input
format of the specification). -/
def monthNameCap : Nat → List Char
  | 1 => "January".toList
  | 2 => "February".toList
  | 3 => "March".toList
  | 4 => "April".toList
  | 5 => "May".toList
  | 6 => "June".toList
  | 7 => "July".toList
  | 8 => "August".toList
  | 9 => "September".toList
  | 10 => "October".toList
  | 11 => "November".toList
  | 12 => "December".toList
  | _ => []

/-- `monthNameParse` succeeds on a rendered `MonthName D, YYYY` input. -/
theorem monthNameParse_render (y m d : Nat) (hm1 : 1 ≤ m) (hm2 : m ≤ 12)
    (hd1 : 1 ≤ d) (hd2 : d ≤ 99) (hy1 : 1000 ≤ y) (hy2 : y ≤ 9999)
    (hv : validYmd y m d = true) :
    monthNameParse (monthNameCap m ++ ' ' :: (natDigits d ++ ',' :: ' ' :: natDigits y))
      = some (y, m, d) := by
  interval_cases m
  · unfold monthNameParse
    simp only [monthNameCap]
    rw [monthRender_lower ("January".toList) ("january".toList) y d (by decide)]
    have hassoc : ("january".toList : List Char) ++ ' ' :: (natDigits d ++ ',' :: ' ' :: natDigits y)
        = ("january".toList ++ [' ']) ++ (natDigits d ++ ',' :: ' ' :: natDigits y) := by simp
    rw [tryMonthExact_render ("january".toList) 0 y d hd1 hd2 hy1 hy2 hv, firstSome_some]
  · unfold monthNameParse
    simp only [monthNameCap]
    rw [monthRender_lower ("February".toList) ("february".toList) y d (by decide)]
    have hassoc : ("february".toList : List Char) ++ ' ' :: (natDigits d ++ ',' :: ' ' :: natDigits y)
        = ("february".toList ++ [' ']) ++ (natDigits d ++ ',' :: ' ' :: natDigits y) := by simp
    rw [tryMonthExact_no ("february".toList ++ ' ' :: (natDigits d ++ ',' :: ' ' :: natDigits y))
      0 ("january".toList)
      (by rw [hassoc]; exact startsList_false_of_take _ _ _ (by decide)), firstSome_none]
    rw [tryMonthExact_render ("february".toList) 1 y d hd1 hd2 hy1 hy2 hv, firstSome_some]
  · unfold monthNameParse
    simp only [monthNameCap]
    rw [monthRender_lower ("March".toList) ("march".toList) y d (by decide)]
    have hassoc : ("march".toList : List Char) ++ ' ' :: (natDigits d ++ ',' :: ' ' :: natDigits y)
        = ("march".toList ++ [' ']) ++ (natDigits d ++ ',' :: ' ' :: natDigits y) := by simp
    rw [tryMonthExact_no ("march".toList ++ ' ' :: (natDigits d ++ ',' :: ' ' :: natDigits y))
      0 ("january".toList)
      (by rw [hassoc]; exact startsList_false_of_take _ _ _ (by decide)), firstSome_none]
    rw [tryMonthExact_no ("march".toList ++ ' ' :: (natDigits d ++ ',' :: ' ' :: natDigits y))
      1 ("february".toList)
      (by rw [hassoc]; exact startsList_false_of_take _ _ _ (by decide)), firstSome_none]
    rw [tryMonthExact_render ("march".toList) 2 y d hd1 hd2 hy1 hy2 hv, firstSome_some]
  · unfold monthNameParse
    simp only [monthNameCap]
    rw [monthRender_lower ("April".toList) ("april".toList) y d (by decide)]
    have hassoc : ("april".toList : List Char) ++ ' ' :: (natDigits d ++ ',' :: ' ' :: natDigits y)
        = ("april".toList ++ [' ']) ++ (natDigits d ++ ',' :: ' ' :: natDigits y) := by simp
    rw [tryMonthExact_no ("april".toList ++ ' ' :: (natDigits d ++ ',' :: ' ' :: natDigits y))
      0 ("january".toList)
      (by rw [hassoc]; exact startsList_false_of_take _ _ _ (by decide)), firstSome_none]
    rw [tryMonthExact_no ("april".toList ++ ' ' :: (natDigits d ++ ',' :: ' ' :: natDigits y))
      1 ("february".toList)
      (by rw [hassoc]; exact startsList_false_of_take _ _ _ (by decide)), firstSome_none]
    rw [tryMonthExact_no ("april".toList ++ ' ' :: (natDigits d ++ ',' :: ' ' :: natDigits y))
      2 ("march".toList)
      (by rw [hassoc]; exact startsList_false_of_take _ _ _ (by decide)), firstSome_none]
    rw [tryMonthExact_render ("april".toList) 3 y d hd1 hd2 hy1 hy2 hv, firstSome_some]
  · unfold monthNameParse
    simp only [monthNameCap]
    rw [monthRender_lower ("May".toList) ("may".toList) y d (by decide)]
    have hassoc : ("may".toList : List Char) ++ ' ' :: (natDigits d ++ ',' :: ' ' :: natDigits y)
        = ("may".toList ++ [' ']) ++ (natDigits d ++ ',' :: ' ' :: natDigits y) := by simp
    rw [tryMonthExact_no ("may".toList ++ ' ' :: (natDigits d ++ ',' :: ' ' :: natDigits y))
      0 ("january".toList)
      (by rw [hassoc]; exact startsList_false_of_take _ _ _ (by decide)), firstSome_none]
    rw [tryMonthExact_no ("may".toList ++ ' ' :: (natDigits d ++ ',' :: ' ' :: natDigits y))
      1 ("february".toList)
      (by rw [hassoc]; exact startsList_false_of_take _ _ _ (by decide)), firstSome_none]
    rw [tryMonthExact_no ("may".toList ++ ' ' :: (natDigits d ++ ',' :: ' ' :: natDigits y))
      2 ("march".toList)
      (by rw [hassoc]; exact startsList_false_of_take _ _ _ (by decide)), firstSome_none]
    rw [tryMonthExact_no ("may".toList ++ ' ' :: (natDigits d ++ ',' :: ' ' :: natDigits y))
      3 ("april".toList)
      (by rw [hassoc]; exact startsList_false_of_take _ _ _ (by decide)), firstSome_none]
    rw [tryMonthExact_render ("may".toList) 4 y d hd1 hd2 hy1 hy2 hv, firstSome_some]
  · unfold monthNameParse
    simp only [monthNameCap]
    rw [monthRender_lower ("June".toList) ("june".toList) y d (by decide)]
    have hassoc : ("june".toList : List Char) ++ ' ' :: (natDigits d ++ ',' :: ' ' :: natDigits y)
        = ("june".toList ++ [' ']) ++ (natDigits d ++ ',' :: ' ' :: natDigits y) := by simp
    rw [tryMonthExact_no ("june".toList ++ ' ' :: (natDigits d ++ ',' :: ' ' :: natDigits y))
      0 ("january".toList)
      (by rw [hassoc]; exact startsList_false_of_take _ _ _ (by decide)), firstSome_none]
    rw [tryMonthExact_no ("june".toList ++ ' ' :: (natDigits d ++ ',' :: ' ' :: natDigits y))
      1 ("february".toList)
      (by rw [hassoc]; exact startsList_false_of_take _ _ _ (by decide)), firstSome_none]
    rw [tryMonthExact_no ("june".toList ++ ' ' :: (natDigits d ++ ',' :: ' ' :: natDigits y))
      2 ("march".toList)
      (by rw [hassoc]; exact startsList_false_of_take _ _ _ (by decide)), firstSome_none]
    rw [tryMonthExact_no ("june".toList ++ ' ' :: (natDigits d ++ ',' :: ' ' :: natDigits y))
      3 ("april".toList)
      (by rw [hassoc]; exact startsList_false_of_take _ _ _ (by decide)), firstSome_none]
    rw [tryMonthExact_no ("june".toList ++ ' ' :: (natDigits d ++ ',' :: ' ' :: natDigits y))
      4 ("may".toList)
      (by rw [hassoc]; exact startsList_false_of_take _ _ _ (by decide)), firstSome_none]
    rw [tryMonthExact_render ("june".toList) 5 y d hd1 hd2 hy1 hy2 hv, firstSome_some]
  · unfold monthNameParse
    simp only [monthNameCap]
    rw [monthRender_lower ("July".toList) ("july".toList) y d (by decide)]
    have hassoc : ("july".toList : List Char) ++ ' ' :: (natDigits d ++ ',' :: ' ' :: natDigits y)
        = ("july".toList ++ [' ']) ++ (natDigits d ++ ',' :: ' ' :: natDigits y) := by simp
    rw [tryMonthExact_no ("july".toList ++ ' ' :: (natDigits d ++ ',' :: ' ' :: natDigits y))
      0 ("january".toList)
      (by rw [hassoc]; exact startsList_false_of_take _ _ _ (by decide)), firstSome_none]
    rw [tryMonthExact_no ("july".toList ++ ' ' :: (natDigits d ++ ',' :: ' ' :: natDigits y))
      1 ("february".toList)
      (by rw [hassoc]; exact startsList_false_of_take _ _ _ (by decide)), firstSome_none]
    rw [tryMonthExact_no ("july".toList ++ ' ' :: (natDigits d ++ ',' :: ' ' :: natDigits y))
      2 ("march".toList)
      (by rw [hassoc]; exact startsList_false_of_take _ _ _ (by decide)), firstSome_none]
    rw [tryMonthExact_no ("july".toList ++ ' ' :: (natDigits d ++ ',' :: ' ' :: natDigits y))
      3 ("april".toList)
      (by rw [hassoc]; exact startsList_false_of_take _ _ _ (by decide)), firstSome_none]
    rw [tryMonthExact_no ("july".toList ++ ' ' :: (natDigits d ++ ',' :: ' ' :: natDigits y))
      4 ("may".toList)
      (by rw [hassoc]; exact startsList_false_of_take _ _ _ (by decide)), firstSome_none]
    rw [tryMonthExact_no ("july".toList ++ ' ' :: (natDigits d ++ ',' :: ' ' :: natDigits y))
      5 ("june".toList)
      (by rw [hassoc]; exact startsList_false_of_take _ _ _ (by decide)), firstSome_none]
    rw [tryMonthExact_render ("july".toList) 6 y d hd1 hd2 hy1 hy2 hv, firstSome_some]
  · unfold monthNameParse
    simp only [monthNameCap]
    rw [monthRender_lower ("August".toList) ("august".toList) y d (by decide)]
    have hassoc : ("august".toList : List Char) ++ ' ' :: (natDigits d ++ ',' :: ' ' :: natDigits y)
        = ("august".toList ++ [' ']) ++ (natDigits d ++ ',' :: ' ' :: natDigits y) := by simp
    rw [tryMonthExact_no ("august".toList ++ ' ' :: (natDigits d ++ ',' :: ' ' :: natDigits y))
      0 ("january".toList)
      (by rw [hassoc]; exact startsList_false_of_take _ _ _ (by decide)), firstSome_none]
    rw [tryMonthExact_no ("august".toList ++ ' ' :: (natDigits d ++ ',' :: ' ' :: natDigits y))
      1 ("february".toList)
      (by rw [hassoc]; exact startsList_false_of_take _ _ _ (by decide)), firstSome_none]
    rw [tryMonthExact_no ("august".toList ++ ' ' :: (natDigits d ++ ',' :: ' ' :: natDigits y))
      2 ("march".toList)
      (by rw [hassoc]; exact startsList_false_of_take _ _ _ (by decide)), firstSome_none]
    rw [tryMonthExact_no ("august".toList ++ ' ' :: (natDigits d ++ ',' :: ' ' :: natDigits y))
      3 ("april".toList)
      (by rw [hassoc]; exact startsList_false_of_take _ _ _ (by decide)), firstSome_none]
    rw [tryMonthExact_no ("august".toList ++ ' ' :: (natDigits d ++ ',' :: ' ' :: natDigits y))
      4 ("may".toList)
      (by rw [hassoc]; exact startsList_false_of_take _ _ _ (by decide)), firstSome_none]
    rw [tryMonthExact_no ("august".toList ++ ' ' :: (natDigits d ++ ',' :: ' ' :: natDigits y))
      5 ("june".toList)
      (by rw [hassoc]; exact startsList_false_of_take _ _ _ (by decide)), firstSome_none]
    rw [tryMonthExact_no ("august".toList ++ ' ' :: (natDigits d ++ ',' :: ' ' :: natDigits y))
      6 ("july".toList)
      (by rw [hassoc]; exact startsList_false_of_take _ _ _ (by decide)), firstSome_none]
    rw [tryMonthExact_render ("august".toList) 7 y d hd1 hd2 hy1 hy2 hv, firstSome_some]
  · unfold monthNameParse
    simp only [monthNameCap]
    rw [monthRender_lower ("September".toList) ("september".toList) y d (by decide)]
    have hassoc : ("september".toList : List Char) ++ ' ' :: (natDigits d ++ ',' :: ' ' :: natDigits y)
        = ("september".toList ++ [' ']) ++ (natDigits d ++ ',' :: ' ' :: natDigits y) := by simp
    rw [tryMonthExact_no ("september".toList ++ ' ' :: (natDigits d ++ ',' :: ' ' :: natDigits y))
      0 ("january".toList)
      (by rw [hassoc]; exact startsList_false_of_take _ _ _ (by decide)), firstSome_none]
    rw [tryMonthExact_no ("september".toList ++ ' ' :: (natDigits d ++ ',' :: ' ' :: natDigits y))
      1 ("february".toList)
      (by rw [hassoc]; exact startsList_false_of_take _ _ _ (by decide)), firstSome_none]
    rw [tryMonthExact_no ("september".toList ++ ' ' :: (natDigits d ++ ',' :: ' ' :: natDigits y))
      2 ("march".toList)
      (by rw [hassoc]; exact startsList_false_of_take _ _ _ (by decide)), firstSome_none]
    rw [tryMonthExact_no ("september".toList ++ ' ' :: (natDigits d ++ ',' :: ' ' :: natDigits y))
      3 ("april".toList)
      (by rw [hassoc]; exact startsList_false_of_take _ _ _ (by decide)), firstSome_none]
    rw [tryMonthExact_no ("september".toList ++ ' ' :: (natDigits d ++ ',' :: ' ' :: natDigits y))
      4 ("may".toList)
      (by rw [hassoc]; exact startsList_false_of_take _ _ _ (by decide)), firstSome_none]
    rw [tryMonthExact_no ("september".toList ++ ' ' :: (natDigits d ++ ',' :: ' ' :: natDigits y))
      5 ("june".toList)
      (by rw [hassoc]; exact startsList_false_of_take _ _ _ (by decide)), firstSome_none]
    rw [tryMonthExact_no ("september".toList ++ ' ' :: (natDigits d ++ ',' :: ' ' :: natDigits y))
      6 ("july".toList)
      (by rw [hassoc]; exact startsList_false_of_take _ _ _ (by decide)), firstSome_none]
    rw [tryMonthExact_no ("september".toList ++ ' ' :: (natDigits d ++ ',' :: ' ' :: natDigits y))
      7 ("august".toList)
      (by rw [hassoc]; exact startsList_false_of_take _ _ _ (by decide)), firstSome_none]
    rw [tryMonthExact_render ("september".toList) 8 y d hd1 hd2 hy1 hy2 hv, firstSome_some]
  · unfold monthNameParse
    simp only [monthNameCap]
    rw [monthRender_lower ("October".toList) ("october".toList) y d (by decide)]
    have hassoc : ("october".toList : List Char) ++ ' ' :: (natDigits d ++ ',' :: ' ' :: natDigits y)
        = ("october".toList ++ [' ']) ++ (natDigits d ++ ',' :: ' ' :: natDigits y) := by simp
    rw [tryMonthExact_no ("october".toList ++ ' ' :: (natDigits d ++ ',' :: ' ' :: natDigits y))
      0 ("january".toList)
      (by rw [hassoc]; exact startsList_false_of_take _ _ _ (by decide)), firstSome_none]
    rw [tryMonthExact_no ("october".toList ++ ' ' :: (natDigits d ++ ',' :: ' ' :: natDigits y))
      1 ("february".toList)
      (by rw [hassoc]; exact startsList_false_of_take _ _ _ (by decide)), firstSome_none]
    rw [tryMonthExact_no ("october".toList ++ ' ' :: (natDigits d ++ ',' :: ' ' :: natDigits y))
      2 ("march".toList)
      (by rw [hassoc]; exact startsList_false_of_take _ _ _ (by decide)), firstSome_none]
    rw [tryMonthExact_no ("october".toList ++ ' ' :: (natDigits d ++ ',' :: ' ' :: natDigits y))
      3 ("april".toList)
      (by rw [hassoc]; exact startsList_false_of_take _ _ _ (by decide)), firstSome_none]
    rw [tryMonthExact_no ("october".toList ++ ' ' :: (natDigits d ++ ',' :: ' ' :: natDigits y))
      4 ("may".toList)
      (by rw [hassoc]; exact startsList_false_of_take _ _ _ (by decide)), firstSome_none]
    rw [tryMonthExact_no ("october".toList ++ ' ' :: (natDigits d ++ ',' :: ' ' :: natDigits y))
      5 ("june".toList)
      (by rw [hassoc]; exact startsList_false_of_take _ _ _ (by decide)), firstSome_none]
    rw [tryMonthExact_no ("october".toList ++ ' ' :: (natDigits d ++ ',' :: ' ' :: natDigits y))
      6 ("july".toList)
      (by rw [hassoc]; exact startsList_false_of_take _ _ _ (by decide)), firstSome_none]
    rw [tryMonthExact_no ("october".toList ++ ' ' :: (natDigits d ++ ',' :: ' ' :: natDigits y))
      7 ("august".toList)
      (by rw [hassoc]; exact startsList_false_of_take _ _ _ (by decide)), firstSome_none]
    rw [tryMonthExact_no ("october".toList ++ ' ' :: (natDigits d ++ ',' :: ' ' :: natDigits y))
      8 ("september".toList)
      (by rw [hassoc]; exact startsList_false_of_take _ _ _ (by decide)), firstSome_none]
    rw [tryMonthExact_render ("october".toList) 9 y d hd1 hd2 hy1 hy2 hv, firstSome_some]
  · unfold monthNameParse
    simp only [monthNameCap]
    rw [monthRender_lower ("November".toList) ("november".toList) y d (by decide)]
    have hassoc : ("november".toList : List Char) ++ ' ' :: (natDigits d ++ ',' :: ' ' :: natDigits y)
        = ("november".toList ++ [' ']) ++ (natDigits d ++ ',' :: ' ' :: natDigits y) := by simp
    rw [tryMonthExact_no ("november".toList ++ ' ' :: (natDigits d ++ ',' :: ' ' :: natDigits y))
      0 ("january".toList)
      (by rw [hassoc]; exact startsList_false_of_take _ _ _ (by decide)), firstSome_none]
    rw [tryMonthExact_no ("november".toList ++ ' ' :: (natDigits d ++ ',' :: ' ' :: natDigits y))
      1 ("february".toList)
      (by rw [hassoc]; exact startsList_false_of_take _ _ _ (by decide)), firstSome_none]
    rw [tryMonthExact_no ("november".toList ++ ' ' :: (natDigits d ++ ',' :: ' ' :: natDigits y))
      2 ("march".toList)
      (by rw [hassoc]; exact startsList_false_of_take _ _ _ (by decide)), firstSome_none]
    rw [tryMonthExact_no ("november".toList ++ ' ' :: (natDigits d ++ ',' :: ' ' :: natDigits y))
      3 ("april".toList)
      (by rw [hassoc]; exact startsList_false_of_take _ _ _ (by decide)), firstSome_none]
    rw [tryMonthExact_no ("november".toList ++ ' ' :: (natDigits d ++ ',' :: ' ' :: natDigits y))
      4 ("may".toList)
      (by rw [hassoc]; exact startsList_false_of_take _ _ _ (by decide)), firstSome_none]
    rw [tryMonthExact_no ("november".toList ++ ' ' :: (natDigits d ++ ',' :: ' ' :: natDigits y))
      5 ("june".toList)
      (by rw [hassoc]; exact startsList_false_of_take _ _ _ (by decide)), firstSome_none]
    rw [tryMonthExact_no ("november".toList ++ ' ' :: (natDigits d ++ ',' :: ' ' :: natDigits y))
      6 ("july".toList)
      (by rw [hassoc]; exact startsList_false_of_take _ _ _ (by decide)), firstSome_none]
    rw [tryMonthExact_no ("november".toList ++ ' ' :: (natDigits d ++ ',' :: ' ' :: natDigits y))
      7 ("august".toList)
      (by rw [hassoc]; exact startsList_false_of_take _ _ _ (by decide)), firstSome_none]
    rw [tryMonthExact_no ("november".toList ++ ' ' :: (natDigits d ++ ',' :: ' ' :: natDigits y))
      8 ("september".toList)
      (by rw [hassoc]; exact startsList_false_of_take _ _ _ (by decide)), firstSome_none]
    rw [tryMonthExact_no ("november".toList ++ ' ' :: (natDigits d ++ ',' :: ' ' :: natDigits y))
      9 ("october".toList)
      (by rw [hassoc]; exact startsList_false_of_take _ _ _ (by decide)), firstSome_none]
    rw [tryMonthExact_render ("november".toList) 10 y d hd1 hd2 hy1 hy2 hv, firstSome_some]
  · unfold monthNameParse
    simp only [monthNameCap]
    rw [monthRender_lower ("December".toList) ("december".toList) y d (by decide)]
    have hassoc : ("december".toList : List Char) ++ ' ' :: (natDigits d ++ ',' :: ' ' :: natDigits y)
        = ("december".toList ++ [' ']) ++ (natDigits d ++ ',' :: ' ' :: natDigits y) := by simp
    rw [tryMonthExact_no ("december".toList ++ ' ' :: (natDigits d ++ ',' :: ' ' :: natDigits y))
      0 ("january".toList)
      (by rw [hassoc]; exact startsList_false_of_take _ _ _ (by decide)), firstSome_none]
    rw [tryMonthExact_no ("december".toList ++ ' ' :: (natDigits d ++ ',' :: ' ' :: natDigits y))
      1 ("february".toList)
      (by rw [hassoc]; exact startsList_false_of_take _ _ _ (by decide)), firstSome_none]
    rw [tryMonthExact_no ("december".toList ++ ' ' :: (natDigits d ++ ',' :: ' ' :: natDigits y))
      2 ("march".toList)
      (by rw [hassoc]; exact startsList_false_of_take _ _ _ (by decide)), firstSome_none]
    rw [tryMonthExact_no ("december".toList ++ ' ' :: (natDigits d ++ ',' :: ' ' :: natDigits y))
      3 ("april".toList)
      (by rw [hassoc]; exact startsList_false_of_take _ _ _ (by decide)), firstSome_none]
    rw [tryMonthExact_no ("december".toList ++ ' ' :: (natDigits d ++ ',' :: ' ' :: natDigits y))
      4 ("may".toList)
      (by rw [hassoc]; exact startsList_false_of_take _ _ _ (by decide)), firstSome_none]
    rw [tryMonthExact_no ("december".toList ++ ' ' :: (natDigits d ++ ',' :: ' ' :: natDigits y))
      5 ("june".toList)
      (by rw [hassoc]; exact startsList_false_of_take _ _ _ (by decide)), firstSome_none]
    rw [tryMonthExact_no ("december".toList ++ ' ' :: (natDigits d ++ ',' :: ' ' :: natDigits y))
      6 ("july".toList)
      (by rw [hassoc]; exact startsList_false_of_take _ _ _ (by decide)), firstSome_none]
    rw [tryMonthExact_no ("december".toList ++ ' ' :: (natDigits d ++ ',' :: ' ' :: natDigits y))
      7 ("august".toList)
      (by rw [hassoc]; exact startsList_false_of_take _ _ _ (by decide)), firstSome_none]
    rw [tryMonthExact_no ("december".toList ++ ' ' :: (natDigits d ++ ',' :: ' ' :: natDigits y))
      8 ("september".toList)
      (by rw [hassoc]; exact startsList_false_of_take _ _ _ (by decide)), firstSome_none]
    rw [tryMonthExact_no ("december".toList ++ ' ' :: (natDigits d ++ ',' :: ' ' :: natDigits y))
      9 ("october".toList)
      (by rw [hassoc]; exact startsList_false_of_take _ _ _ (by decide)), firstSome_none]
    rw [tryMonthExact_no ("december".toList ++ ' ' :: (natDigits d ++ ',' :: ' ' :: natDigits y))
      10 ("november".toList)
      (by rw [hassoc]; exact startsList_false_of_take _ _ _ (by decide)), firstSome_none]
    rw [tryMonthExact_render ("december".toList) 11 y d hd1 hd2 hy1 hy2 hv]

theorem monthCap_chars (m : Nat) (hm1 : 1 ≤ m) (hm2 : m ≤ 12) :
    ∀ c ∈ monthNameCap m, c ≠ '-' ∧ c ≠ '/' := by
  interval_cases m <;> decide

theorem monthCap_head_not_ws (m : Nat) (hm1 : 1 ≤ m) (hm2 : m ≤ 12) (x : List Char) :
    isWsChar ((monthNameCap m ++ x).headD '0') = false := by
  interval_cases m <;> rfl

theorem monthRender_no_dash (y m d : Nat) (hm1 : 1 ≤ m) (hm2 : m ≤ 12) :
    ∀ c ∈ monthNameCap m ++ ' ' :: (natDigits d ++ ',' :: ' ' :: natDigits y), c ≠ '-' := by
  intro c hc
  rcases List.mem_append.mp hc with h1 | h2
  · exact (monthCap_chars m hm1 hm2 c h1).1
  · rcases List.mem_cons.mp h2 with h3 | h4
    · rw [h3]; decide
    · rcases List.mem_append.mp h4 with h5 | h6
      · exact digit_not_dash (natDigits_all_digits d c h5)
      · rcases List.mem_cons.mp h6 with h7 | h8
        · rw [h7]; decide
        · rcases List.mem_cons.mp h8 with h9 | h10
          · rw [h9]; decide
          · exact digit_not_dash (natDigits_all_digits y c h10)

theorem monthRender_no_slash (y m d : Nat) (hm1 : 1 ≤ m) (hm2 : m ≤ 12) :
    ∀ c ∈ monthNameCap m ++ ' ' :: (natDigits d ++ ',' :: ' ' :: natDigits y), c ≠ '/' := by
  intro c hc
  rcases List.mem_append.mp hc with h1 | h2
  · exact (monthCap_chars m hm1 hm2 c h1).2
  · rcases List.mem_cons.mp h2 with h3 | h4
    · rw [h3]; decide
    · rcases List.mem_append.mp h4 with h5 | h6
      · exact digit_not_slash (natDigits_all_digits d c h5)
      · rcases List.mem_cons.mp h6 with h7 | h8
        · rw [h7]; decide
        · rcases List.mem_cons.mp h8 with h9 | h10
          · rw [h9]; decide
          · exact digit_not_slash (natDigits_all_digits y c h10)

/-! ## The three rendered input formats of the specification and the
canonical US form (C9) -/

/-- ISO input `YYYY-MM-DD`. -/
def renderISO (y m d : Nat) : String :=
  String.mk (natDigits y ++ '-' :: (padTo 2 m ++ '-' :: padTo 2 d))

/-- US input `M/D/YYYY`. -/
def renderUS (y m d : Nat) : String :=
  String.mk (natDigits m ++ '/' :: (natDigits d ++ '/' :: natDigits y))

/-- Month-name input `MonthName D, YYYY`. -/
def renderMonthName (y m d : Nat) : String :=
  String.mk (monthNameCap m ++ ' ' :: (natDigits d ++ ',' :: ' ' :: natDigits y))

/-- The canonical `MM/DD/YYYY` rendering of a calendar date. -/
def canonicalUS (y m d : Nat) : String :=
  String.mk (padTo 2 m ++ '/' :: (padTo 2 d ++ '/' :: natDigits y))

theorem jsTrim_isoRender (y m d : Nat) :
    jsTrim (natDigits y ++ '-' :: (padTo 2 m ++ '-' :: padTo 2 d))
      = natDigits y ++ '-' :: (padTo 2 m ++ '-' :: padTo 2 d) := by
  rcases natDigits_head_digit y with ⟨c0, cs0, hc0, hd0⟩
  rcases padTo_last_digit 2 d with ⟨xs, cl, hxs, hdl⟩
  apply jsTrim_eq_self_of_ends
  · rw [hc0]
    simp only [List.cons_append, List.headD_cons]
    exact digit_not_ws hd0
  · have hdec : natDigits y ++ '-' :: (padTo 2 m ++ '-' :: padTo 2 d)
        = (natDigits y ++ '-' :: (padTo 2 m ++ '-' :: xs)) ++ [cl] := by
      rw [hxs]
      simp
    rw [getLastD_concat_form hdec]
    exact digit_not_ws hdl

theorem jsTrim_usRender (y m d : Nat) :
    jsTrim (natDigits m ++ '/' :: (natDigits d ++ '/' :: natDigits y))
      = natDigits m ++ '/' :: (natDigits d ++ '/' :: natDigits y) := by
  rcases natDigits_head_digit m with ⟨c0, cs0, hc0, hd0⟩
  rcases natDigits_last_digit y with ⟨xs, cl, hxs, hdl⟩
  apply jsTrim_eq_self_of_ends
  · rw [hc0]
    simp only [List.cons_append, List.headD_cons]
    exact digit_not_ws hd0
  · have hdec : natDigits m ++ '/' :: (natDigits d ++ '/' :: natDigits y)
        = (natDigits m ++ '/' :: (natDigits d ++ '/' :: xs)) ++ [cl] := by
      rw [hxs]
      simp
    rw [getLastD_concat_form hdec]
    exact digit_not_ws hdl

theorem jsTrim_monthRender (y m d : Nat) (hm1 : 1 ≤ m) (hm2 : m ≤ 12) :
    jsTrim (monthNameCap m ++ ' ' :: (natDigits d ++ ',' :: ' ' :: natDigits y))
      = monthNameCap m ++ ' ' :: (natDigits d ++ ',' :: ' ' :: natDigits y) := by
  rcases natDigits_last_digit y with ⟨xs, cl, hxs, hdl⟩
  apply jsTrim_eq_self_of_ends
  · exact monthCap_head_not_ws m hm1 hm2 _
  · have hdec : monthNameCap m ++ ' ' :: (natDigits d ++ ',' :: ' ' :: natDigits y)
        = (monthNameCap m ++ ' ' :: (natDigits d ++ ',' :: ' ' :: xs)) ++ [cl] := by
      rw [hxs]
      simp
    rw [getLastD_concat_form hdec]
    exact digit_not_ws hdl

theorem jsDateParse_isoRender (y m d : Nat) (hy1 : 1000 ≤ y) (hy2 : y ≤ 9999)
    (hv : validYmd y m d = true) :
    jsDateParse (natDigits y ++ '-' :: (padTo 2 m ++ '-' :: padTo 2 d)) = some (y, m, d) := by
  unfold jsDateParse
  rw [isoParse_render y m d hy1 hy2 hv]

theorem jsDateParse_usRender (y m d : Nat) (hy1 : 1000 ≤ y) (hy2 : y ≤ 9999)
    (hv : validYmd y m d = true) :
    jsDateParse (natDigits m ++ '/' :: (natDigits d ++ '/' :: natDigits y)) = some (y, m, d) := by
  unfold jsDateParse
  rw [isoParse_none_no_dash (usRender_no_dash y m d), usParse_render y m d hy1 hy2 hv]

theorem jsDateParse_monthRender (y m d : Nat) (hy1 : 1000 ≤ y) (hy2 : y ≤ 9999)
    (hv : validYmd y m d = true) :
    jsDateParse (monthNameCap m ++ ' ' :: (natDigits d ++ ',' :: ' ' :: natDigits y))
      = some (y, m, d) := by
  rcases validYmd_bounds hv with ⟨hm1, hm2, hd1, hd2⟩
  unfold jsDateParse
  rw [isoParse_none_no_dash (monthRender_no_dash y m d hm1 hm2),
    usParse_none_no_slash (monthRender_no_slash y m d hm1 hm2),
    monthNameParse_render y m d hm1 hm2 hd1 (by omega) hy1 hy2 hv]

theorem parseDateL_of_jsDateParse {cs : List Char} {y m d : Nat} (hne : cs ≠ [])
    (htrim : jsTrim cs = cs) (h : jsDateParse cs = some (y, m, d)) :
    parseDateL cs = some (toISODate y m d) := by
  unfold parseDateL
  rw [if_neg hne]
  simp only []
  rw [htrim, h]

theorem formatDateForAthena_toISO (y m d : Nat) (hy : (natDigits y).length = 4) :
    formatDateForAthena (some (String.mk (toISODate y m d))) = canonicalUS y m d := by
  unfold formatDateForAthena
  simp only []
  rw [if_neg (strmk_ne_empty (by
    unfold toISODate
    rcases padTo_head_digit 4 y with ⟨c0, cs0, hc0, _⟩
    rw [hc0]
    simp))]
  rw [strmk_toList]
  unfold toISODate
  rw [padTo_eq_self hy]
  rw [splitOnChar_append _ (fun c hc => digit_not_dash (natDigits_all_digits y c hc)),
    splitOnChar_append _ (fun c hc => digit_not_dash (padTo_all_digits 2 m c hc)),
    splitOnChar_no_sep (fun c hc => digit_not_dash (padTo_all_digits 2 d c hc))]
  rfl

/-- C9: for every valid calendar date, parsing its ISO, US, or month-name
rendering with the ingress date parser and formatting with the Athena date
formatter yields the canonical `MM/DD/YYYY` rendering of that date. -/
theorem date_roundtrip (y m d : Nat) (hy1 : 1000 ≤ y) (hy2 : y ≤ 9999)
    (hv : validYmd y m d = true) :
    formatDateForAthena (parseDate (some (renderISO y m d))) = canonicalUS y m d ∧
    formatDateForAthena (parseDate (some (renderUS y m d))) = canonicalUS y m d ∧
    formatDateForAthena (parseDate (some (renderMonthName y m d))) = canonicalUS y m d := by
  have hy4 : (natDigits y).length = 4 := natDigits_length_four hy1 hy2
  refine ⟨?_, ?_, ?_⟩
  · show formatDateForAthena ((parseDateL (renderISO y m d).toList).map
      (fun cs => String.mk cs)) = canonicalUS y m d
    rw [show (renderISO y m d).toList
        = natDigits y ++ '-' :: (padTo 2 m ++ '-' :: padTo 2 d) from rfl]
    rw [parseDateL_of_jsDateParse
      (by rcases natDigits_head_digit y with ⟨c0, cs0, hc0, _⟩; rw [hc0]; simp)
      (jsTrim_isoRender y m d) (jsDateParse_isoRender y m d hy1 hy2 hv)]
    exact formatDateForAthena_toISO y m d hy4
  · show formatDateForAthena ((parseDateL (renderUS y m d).toList).map
      (fun cs => String.mk cs)) = canonicalUS y m d
    rw [show (renderUS y m d).toList
        = natDigits m ++ '/' :: (natDigits d ++ '/' :: natDigits y) from rfl]
    rw [parseDateL_of_jsDateParse
      (by rcases natDigits_head_digit m with ⟨c0, cs0, hc0, _⟩; rw [hc0]; simp)
      (jsTrim_usRender y m d) (jsDateParse_usRender y m d hy1 hy2 hv)]
    exact formatDateForAthena_toISO y m d hy4
  · rcases validYmd_bounds hv with ⟨hm1, hm2, _, _⟩
    show formatDateForAthena ((parseDateL (renderMonthName y m d).toList).map
      (fun cs => String.mk cs)) = canonicalUS y m d
    rw [show (renderMonthName y m d).toList
        = monthNameCap m ++ ' ' :: (natDigits d ++ ',' :: ' ' :: natDigits y) from rfl]
    rw [parseDateL_of_jsDateParse
      (by
        intro hcontra
        have : (monthNameCap m ++ ' ' :: (natDigits d ++ ',' :: ' ' :: natDigits y)).length
            = 0 := by rw [hcontra]; rfl
        simp at this)
      (jsTrim_monthRender y m d hm1 hm2) (jsDateParse_monthRender y m d hy1 hy2 hv)]
    exact formatDateForAthena_toISO y m d hy4

/-- Witness for C9 at the date 1990-01-15 in all three input formats. -/
theorem date_roundtrip_witness :
    formatDateForAthena (parseDate (some (renderISO 1990 1 15))) = canonicalUS 1990 1 15 ∧
    formatDateForAthena (parseDate (some (renderUS 1990 1 15))) = canonicalUS 1990 1 15 ∧
    formatDateForAthena (parseDate (some (renderMonthName 1990 1 15)))
      = canonicalUS 1990 1 15 :=
  date_roundtrip 1990 1 15 (by decide) (by decide) (by decide)

end GabarAthena
